import Mathlib

set_option maxRecDepth 4000

/-!
Verification development for the outlines-core token-aligned automaton
compiler.  Rust code is shallowly embedded: `HashMap`s become association
lists (one binding per key, `insert` replaces in place or appends),
`HashSet`s become duplicate-free lists, `Vec` stacks keep their top at the
list head, machine integers (`u32`, `u8`) become `Nat` with explicit
bounds or `% 2^w` where overflow matters, and fallible or possibly
diverging code returns `Option`/`Except` (with an outer `Option` whose
`none` models fuel exhaustion of a loop, or an index-out-of-bounds panic
where noted).  The byte DFA produced by the external `regex_automata`
crate is an external collaborator and is modelled by its contract
(`ByteDFA` below); concrete DFAs for the tiny concrete regexes used in
the scenarios are constructed by hand following that contract.
-/

/-- Token identifiers are `u32` in the source (`primitives.rs`). -/
abbrev TokenId := Nat

/-- State identifiers are `u32` in the source (`primitives.rs`). -/
abbrev StateId := Nat

/-- A token is an opaque byte string (`Token = Vec<u8>` in the source). -/
abbrev Token := List Nat

/-- First-match lookup in an association list (the embedding of
`HashMap::get`). -/
def lookupA {α β : Type} [DecidableEq α] : List (α × β) → α → Option β
  | [], _ => none
  | (k, v) :: rest, a => if k = a then some v else lookupA rest a

/-- Insert into an association list, replacing an existing binding in
place or appending a fresh one (the embedding of `HashMap::insert`). -/
def insertA {α β : Type} [DecidableEq α] : List (α × β) → α → β → List (α × β)
  | [], a, b => [(a, b)]
  | (k, v) :: rest, a, b => if k = a then (a, b) :: rest else (k, v) :: insertA rest a b

/-- Key list of an association list (the embedding of `HashMap::keys`). -/
def keysA {α β : Type} : List (α × β) → List α :=
  List.map Prod.fst

/-- Insert into a duplicate-free list (the embedding of
`HashSet::insert`). -/
def hsInsert {α : Type} [DecidableEq α] (s : List α) (a : α) : List α :=
  if a ∈ s then s else s ++ [a]

/-- Contract of the byte DFA produced by the external `regex_automata`
crate (`DFA::new(regex)` plus its `Automaton` trait methods, see spec
§4.4): a total byte transition function and the match / dead / quit /
end-of-input probes used by the projection.  States are the dense
automaton state ids (`StateID::as_u32` is the identity here). -/
structure ByteDFA where
  next : StateId → Nat → StateId
  isMatch : StateId → Bool
  isDead : StateId → Bool
  isQuit : StateId → Bool
  nextEoi : StateId → StateId

/-- Walk a token's bytes through the DFA from `s`; `none` when the walk
hits a dead or quit state (the `continue 'token_loop` in
`Index::new`). -/
def walkToken (dfa : ByteDFA) : StateId → List Nat → Option StateId
  | s, [] => some s
  | s, b :: rest =>
    let ns := dfa.next s b
    if dfa.isDead ns || dfa.isQuit ns then none else walkToken dfa ns rest

/-- Vocabulary of an LLM (`src/vocabulary/mod.rs`): an EOS token id plus
a map from token byte strings to the token ids that decode to them. -/
structure Vocabulary where
  eos_token_id : TokenId
  tokens : List (Token × List TokenId)
  deriving DecidableEq

/-- `Vocabulary::new` (`src/vocabulary/mod.rs`). -/
def Vocabulary.new (eos_token_id : TokenId) : Vocabulary :=
  { eos_token_id, tokens := [] }

/-- `Vocabulary::insert` (`src/vocabulary/mod.rs` lines 49-53):
`self.tokens.entry(token).or_default().push(id)`. -/
def Vocabulary.insert (v : Vocabulary) (token : Token) (id : TokenId) : Vocabulary :=
  { v with tokens := insertA v.tokens token (((lookupA v.tokens token).getD []) ++ [id]) }

/-- Modelled from the spec: `Vocabulary::try_insert` is called throughout
the crate (tests, python bindings, `V2Index`) but its definition is not
under `src/`; per spec §4.1 insertion "Fails when attempting to insert
the EOS id against any token other than the EOS sentinel", otherwise it
appends like `insert`.  The EOS sentinel itself is never stored in
`tokens`, so the failure condition is `id = eos_token_id`. -/
def Vocabulary.try_insert (v : Vocabulary) (token : Token) (id : TokenId) :
    Except String Vocabulary :=
  if id = v.eos_token_id then
    Except.error "EOS token should not be inserted into Vocabulary"
  else
    Except.ok (v.insert token id)

/-- Modelled from the spec: `Vocabulary::len` (spec §4.1 `len()`), the
number of distinct token byte strings; its definition is not under
`src/` (only callers such as `Index::new` are). -/
def Vocabulary.len (v : Vocabulary) : Nat :=
  v.tokens.length

/-- Errors of index construction that the embedded fragment can raise
(`error.rs` is not under scrutiny; only the variant used by the claims
is carried, with its `regex`, `error_state` and `missing_tokens`
fields). -/
inductive IndexError where
  | IncompatibleVocabulary (regex : String) (error_state : StateId)
      (missing_tokens : List String)
  deriving DecidableEq

/-- `Index` (`src/index.rs`): initial state, final-state set, transition
map `state → token id → state`, EOS token id, and vocabulary size. -/
structure Index where
  initial_state : StateId
  final_states : List StateId
  transitions : List (StateId × List (TokenId × StateId))
  eos_token_id : TokenId
  vocab_size : Nat
  deriving DecidableEq

/-- `transitions.entry(current).or_default().insert(token_id, next)`
from `Index::new`. -/
def insertTrans (t : List (StateId × List (TokenId × StateId)))
    (s : StateId) (tid : TokenId) (ns : StateId) :
    List (StateId × List (TokenId × StateId)) :=
  insertA t s (insertA ((lookupA t s).getD []) tid ns)

/-- Lower-case hexadecimal digit, for the `\xNN` byte rendering. -/
def hexDigitChar (n : Nat) : Char :=
  if n < 10 then Char.ofNat (48 + n) else Char.ofNat (87 + n)

/-- One entry of the `missing_tokens` list in `Index::new` (lines
159-169): an ASCII byte is rendered as its character, any other byte as
`format!("\\x{:02x}", byte)`. -/
def byteToMissingString (b : Nat) : String :=
  if b ≤ 127 then String.singleton (Char.ofNat b)
  else "\\x" ++ String.singleton (hexDigitChar (b / 16)) ++ String.singleton (hexDigitChar (b % 16))

/-- The `valid_characters` scan of `Index::new` (lines 159-169): every
byte `0..=255` whose transition out of `state` is neither dead nor
quit, rendered by `byteToMissingString`. -/
def validCharacters (dfa : ByteDFA) (state : StateId) : List String :=
  ((List.range 256).filter
    (fun b => !(dfa.isDead (dfa.next state b) || dfa.isQuit (dfa.next state b)))).map
    byteToMissingString

/-- Mutable state threaded through the per-state token loop of
`Index::new` (lines 126-154): the transition map, the `seen` set, the
worklist (top at the head) and the `has_valid_transitions` flag. -/
structure LoopState where
  transitions : List (StateId × List (TokenId × StateId))
  seen : List StateId
  queue : List StateId
  has_valid : Bool

/-- One iteration of the `'token_loop` of `Index::new` (lines 126-154)
for vocabulary entry `(token, ids)` at DFA state `cur`. -/
def processToken (dfa : ByteDFA) (eos : TokenId) (cur : StateId)
    (st : LoopState) (entry : Token × List TokenId) : LoopState :=
  let (token, ids) := entry
  if eos ∈ ids then st
  else
    match walkToken dfa cur token with
    | none => st
    | some ns =>
      let is_intermediate_state := !dfa.isMatch ns
      let is_full_match_state := dfa.isMatch (dfa.nextEoi ns)
      let st1 :=
        if is_intermediate_state || is_full_match_state then
          { st with
            has_valid := true
            transitions := ids.foldl (fun t id => insertTrans t cur id ns) st.transitions }
        else st
      if ns ∈ st1.seen then st1
      else { st1 with seen := ns :: st1.seen, queue := ns :: st1.queue }

/-- The `while let Some(current_state) = next_states.pop()` loop of
`Index::new` (lines 118-177), with fuel for the (always finite in the
source) worklist iteration; `none` is fuel exhaustion. -/
def indexNewLoop (regex : String) (dfa : ByteDFA) (eos : TokenId)
    (tokens : List (Token × List TokenId)) :
    Nat → List StateId → List StateId →
    List (StateId × List (TokenId × StateId)) → List StateId →
    Option (Except IndexError (List (StateId × List (TokenId × StateId)) × List StateId))
  | _, [], _, tr, finals => some (Except.ok (tr, finals))
  | 0, _ :: _, _, _, _ => none
  | fuel + 1, cur :: rest, seen, tr, finals =>
    let isFinal := dfa.isMatch (dfa.nextEoi cur)
    let finals1 := if isFinal then hsInsert finals cur else finals
    let st := tokens.foldl (processToken dfa eos cur)
      { transitions := tr, seen := seen, queue := rest, has_valid := isFinal }
    if !st.has_valid && !dfa.isMatch cur then
      some (Except.error (IndexError.IncompatibleVocabulary regex cur (validCharacters dfa cur)))
    else
      indexNewLoop regex dfa eos tokens fuel st.queue st.seen st.transitions finals1

/-- `Index::new` (`src/index.rs` lines 103-194).  The external calls
`DFA::new(regex)` and `dfa.universal_start_state(Anchored::Yes)` are
represented by the `dfa` and `start` parameters (their failure cases are
outside the embedded fragment).  After the BFS, every final state
receives the `eos_token_id → itself` binding (lines 180-185). -/
def Index.new (regex : String) (dfa : ByteDFA) (start : StateId)
    (vocabulary : Vocabulary) (fuel : Nat) : Option (Except IndexError Index) :=
  let vocab_size := vocabulary.len
  let eos_token_id := vocabulary.eos_token_id
  match indexNewLoop regex dfa eos_token_id vocabulary.tokens fuel [start] [start] [] [] with
  | none => none
  | some (Except.error e) => some (Except.error e)
  | some (Except.ok (tr, finals)) =>
    let transitions := finals.foldl (fun t f => insertTrans t f eos_token_id f) tr
    some (Except.ok
      { initial_state := start
        final_states := finals
        transitions := transitions
        eos_token_id := eos_token_id
        vocab_size := vocab_size })

/-- `Index::allowed_tokens` (lines 352-357): the key list of the state's
transition map, `none` for a state absent from `transitions`. -/
def Index.allowed_tokens (idx : Index) (state : StateId) : Option (List TokenId) :=
  (lookupA idx.transitions state).map keysA

/-- `Index::next_state` (lines 363-369): `none` on the EOS token id,
otherwise the looked-up transition. -/
def Index.next_state (idx : Index) (state : StateId) (token_id : TokenId) : Option StateId :=
  if token_id = idx.eos_token_id then none
  else (lookupA idx.transitions state).bind (fun inner => lookupA inner token_id)

/-- `Index::is_final_state` (lines 347-350). -/
def Index.is_final_state (idx : Index) (state : StateId) : Bool :=
  state ∈ idx.final_states

/-- `Index::initial_state` (lines 332-335). -/
def Index.initialState (idx : Index) : StateId :=
  idx.initial_state


/-- Two-level lookup in the transition map: the transition target of
`(state, token_id)` if both levels are present. -/
def lookup2 (t : List (StateId × List (TokenId × StateId))) (s : StateId) (tid : TokenId) :
    Option StateId :=
  (lookupA t s).bind (fun inner => lookupA inner tid)

/-- The token ids bound at `state` in the transition map (empty when the
state has no entry). -/
def keysOf (t : List (StateId × List (TokenId × StateId))) (s : StateId) : List TokenId :=
  keysA ((lookupA t s).getD [])

/-- No binding of the transition map uses `eos` as its token id; this is
the invariant of the BFS phase of `Index::new` (the EOS bindings are
added only afterwards, at final states). -/
def TransNoEos (eos : TokenId) (t : List (StateId × List (TokenId × StateId))) : Prop :=
  ∀ s tid, tid ∈ keysOf t s → tid ≠ eos

/-- Hand-constructed byte DFA following the `regex_automata` contract
for the anchored regex `"0 1"` of the incompatible-vocabulary scenario
(spec §8, scenario 3): state 0 reads `'0'` (byte 48) to state 1, which
reads `' '` (32) to state 2, which reads `'1'` (49) to state 3; 4 is the
dead state; the end-of-input transition of the full-match state 3 leads
to the match state 5, all others to the non-match state 6. -/
def dfa01 : ByteDFA where
  next s b :=
    if s = 0 ∧ b = 48 then 1
    else if s = 1 ∧ b = 32 then 2
    else if s = 2 ∧ b = 49 then 3
    else 4
  isMatch s := s = 5
  isDead s := s = 4
  isQuit _ := false
  nextEoi s := if s = 3 then 5 else 6

/-- The vocabulary of the incompatible-vocabulary scenario: EOS id 3 and
tokens `"0" → 0`, `"0 " → 1`, `"1" → 2` (`index.rs` test
`index_incompatible_vocabulary_error`). -/
def vocab01 : Vocabulary where
  eos_token_id := 3
  tokens := [([48], [0]), ([48, 32], [1]), ([49], [2])]

/-- Hand-constructed byte DFA following the `regex_automata` contract
for the anchored regex `"0|[1-9][0-9]*"` (spec §8, scenario 1): state 0
reads `'0'` to state 1 and any of `'1'..'9'` to state 2, which loops on
digits; 3 is the dead state; end-of-input from the accepting states 1
and 2 leads to the match state 4, otherwise to the non-match state 5. -/
def dfaNum : ByteDFA where
  next s b :=
    if s = 0 ∧ b = 48 then 1
    else if s = 0 ∧ 49 ≤ b ∧ b ≤ 57 then 2
    else if s = 2 ∧ 48 ≤ b ∧ b ≤ 57 then 2
    else 3
  isMatch s := s = 4
  isDead s := s = 3
  isQuit _ := false
  nextEoi s := if s = 1 ∨ s = 2 then 4 else 5

/-- The vocabulary of the integer-regex scenario: EOS id 4 and tokens
`"blah" → 0`, `"1a" → 1`, `"2" → 2`, `"0" → 3` (`index.rs` test
`index_from_regex`). -/
def vocabNum : Vocabulary where
  eos_token_id := 4
  tokens := [([98, 108, 97, 104], [0]), ([49, 97], [1]), ([50], [2]), ([48], [3])]

/-- The index built by the embedded `Index::new` on the integer-regex
scenario (computed by evaluation; see `idxNum_eq`). -/
def idxNum : Index where
  initial_state := 0
  final_states := [1, 2]
  transitions := [(0, [(2, 2), (3, 1)]), (2, [(2, 2), (3, 2), (4, 2)]), (1, [(4, 1)])]
  eos_token_id := 4
  vocab_size := 4

/-- `PyGuide` (`bindings/python/src/guide.rs`): a stateful cursor over a
shared index (`PyIndex` is a shared pointer to an `Index`; sharing is
immaterial here). -/
structure PyGuide where
  state : StateId
  index : Index
  deriving DecidableEq

/-- `PyGuide::get_tokens` (`guide.rs` lines 31-40): the allowed tokens of
the current state, or an error when the state has none. -/
def PyGuide.get_tokens (g : PyGuide) : Except String (List TokenId) :=
  match g.index.allowed_tokens g.state with
  | some tokens => Except.ok tokens
  | none => Except.error "No allowed tokens available for the state"

/-- `PyGuide::advance` (`guide.rs` lines 42-53): on a defined transition
the cursor moves and returns the new state's tokens; otherwise the state
is left unchanged and an error is returned.  The returned pair is the
updated guide (`&mut self` in the source) and the `PyResult`. -/
def PyGuide.advance (g : PyGuide) (token_id : TokenId) :
    PyGuide × Except String (List TokenId) :=
  match g.index.next_state g.state token_id with
  | some new_state =>
    let g1 : PyGuide := { g with state := new_state }
    (g1, g1.get_tokens)
  | none => (g, Except.error "No next state found for the current state")

/-- A vocabulary entry that contributes no valid transition out of
`cur` in the token loop of `Index::new`: it contains the EOS id, its
byte walk dies, or it lands on a match state that does not accept
end-of-input (the only case that emits no transition). -/
def stuckEntry (dfa : ByteDFA) (eos : TokenId) (cur : StateId)
    (entry : Token × List TokenId) : Bool :=
  decide (eos ∈ entry.2) ||
    match walkToken dfa cur entry.1 with
    | none => true
    | some ns => dfa.isMatch ns && !dfa.isMatch (dfa.nextEoi ns)

/-- Little-endian byte rendering of a `u32` (`to_le_bytes`); a value of
2^32 or more is truncated exactly as the Rust `as u32` casts do. -/
def u32le (n : Nat) : List Nat :=
  [n % 256, n / 256 % 256, n / 65536 % 256, n / 16777216 % 256]

/-- Byte rendering of one transition-map entry in `Index::save` (lines
224-236): state id, number of transitions, then each `(token_id,
next_state)` pair, all little-endian `u32`s. -/
def encTransEntry (p : StateId × List (TokenId × StateId)) : List Nat :=
  u32le p.1 ++ u32le p.2.length ++ (p.2.map (fun q => u32le q.1 ++ u32le q.2)).flatten

/-- The uncompressed version-1 byte buffer written by `Index::save`
(`src/index.rs` lines 196-236): vocab size, EOS id, initial state,
final-state count and list, the format tag byte `1`, the state count,
and the per-state transition blocks.  The gzip wrapper and the file
write (`flate2`, `std::fs`) are external and assumed to round-trip
bytes unchanged. -/
def Index.saveBytes (idx : Index) : List Nat :=
  u32le idx.vocab_size ++ u32le idx.eos_token_id ++ u32le idx.initial_state ++
    u32le idx.final_states.length ++ (idx.final_states.map u32le).flatten ++
    [1] ++ u32le idx.transitions.length ++ (idx.transitions.map encTransEntry).flatten

/-- The `read_u32` helper of `Index::load` (lines 261-268): fails with
"Unexpected end of buffer" when fewer than four bytes remain. -/
def readU32 (buf : List Nat) : Except String (Nat × List Nat) :=
  match buf with
  | b0 :: b1 :: b2 :: b3 :: rest =>
    Except.ok (b0 + 256 * b1 + 65536 * b2 + 16777216 * b3, rest)
  | _ => Except.error "Unexpected end of buffer"

/-- The final-states read loop of `Index::load` (lines 283-287). -/
def readFinals : Nat → List Nat → List StateId →
    Except String (List StateId × List Nat)
  | 0, buf, acc => Except.ok (acc, buf)
  | n + 1, buf, acc => do
    let (v, buf) ← readU32 buf
    readFinals n buf (hsInsert acc v)

/-- The per-state transition read loop of `Index::load` (lines 313-318). -/
def readInner : Nat → List Nat → List (TokenId × StateId) →
    Except String (List (TokenId × StateId) × List Nat)
  | 0, buf, acc => Except.ok (acc, buf)
  | n + 1, buf, acc => do
    let (tid, buf) ← readU32 buf
    let (ns, buf) ← readU32 buf
    readInner n buf (insertA acc tid ns)

/-- The outer state read loop of `Index::load` (lines 305-321). -/
def readStates : Nat → List Nat → List (StateId × List (TokenId × StateId)) →
    Except String (List (StateId × List (TokenId × StateId)) × List Nat)
  | 0, buf, acc => Except.ok (acc, buf)
  | n + 1, buf, acc => do
    let (sid, buf) ← readU32 buf
    let (ntr, buf) ← readU32 buf
    let (inner, buf) ← readInner ntr buf []
    readStates n buf (insertA acc sid inner)

/-- `Index::load` (lines 249-330) on the decompressed byte buffer:
sequential reads of the version-1 format, failing with "Unexpected end
of buffer" on truncation and "Unsupported index type" on a format tag
other than `1`. -/
def Index.loadBytes (buf : List Nat) : Except String Index := do
  let (vocab_size, buf) ← readU32 buf
  let (eos_token_id, buf) ← readU32 buf
  let (initial_state, buf) ← readU32 buf
  let (num_final, buf) ← readU32 buf
  let (final_states, buf) ← readFinals num_final buf []
  match buf with
  | [] => Except.error "Unexpected end of buffer"
  | index_type :: buf =>
    if index_type ≠ 1 then
      Except.error ("Unsupported index type: " ++ toString index_type)
    else do
      let (num_states, buf) ← readU32 buf
      let (transitions, _) ← readStates num_states buf []
      Except.ok
        { initial_state := initial_state
          final_states := final_states
          transitions := transitions
          eos_token_id := eos_token_id
          vocab_size := vocab_size }

/-- `TokenClassId` is a token-id-sized integer
(`src/tokens_dfa/token_classes.rs` line 10). -/
abbrev TokenClassId := TokenId

/-- `EquivalentGrid` (`src/tokens_dfa/transitions_table.rs` lines
16-34), restricted to the field its read API under scrutiny consults:
`class_id_by_token_id`, the `Vec` giving each token id its class id
(indexed by token id, so out-of-range token ids panic). -/
structure EquivalentGrid where
  class_id_by_token_id : List TokenClassId
  deriving DecidableEq

/-- `MasksTable` (`src/tokens_dfa/transitions_table.rs` lines 142-164):
per-state allowed bitmasks (`Vec<Vec<u64>>`, words as `Nat`) and the
per-state `class id → next state` maps. -/
structure MasksTable where
  vocab_len : Nat
  eos_token_class_id : TokenClassId
  equivalent_grid : EquivalentGrid
  masks : List (List Nat)
  next_states : List (List (TokenClassId × StateId))
  deriving DecidableEq

/-- `MasksTable::allowed_transitions` (lines 225-228): an explicit
bounds check returning `None` for out-of-range states, otherwise the
state's mask. -/
def MasksTable.allowed_transitions (t : MasksTable) (state : StateId) : Option (List Nat) :=
  if t.masks.length ≤ state then none else some (t.masks.getD state [])

/-- `MasksTable::next_state` (lines 230-235).  The source indexes
`class_id_by_token_id[token_id]` and `next_states[state_id]` without
bounds checks; the outer `Option` models the panic (`none` = index out
of bounds), the inner `Option` is the `Option<StateId>` the source
returns. -/
def MasksTable.next_state (t : MasksTable) (state_id : StateId) (token_id : TokenId) :
    Option (Option StateId) :=
  match t.equivalent_grid.class_id_by_token_id[token_id]? with
  | none => none
  | some class_id =>
    match t.next_states[state_id]? with
    | none => none
    | some m => some (lookupA m class_id)

/-- `TokensDFA` (`src/tokens_dfa/mod.rs` lines 36-45). -/
structure TokensDFA where
  eos_token_id : TokenId
  eos_class_id : TokenClassId
  start_state : StateId
  final_states : List StateId
  transitions_table : MasksTable
  deriving DecidableEq

/-- `V2Index` (`src/v2_index.rs` lines 10-13). -/
structure V2Index where
  tokens_dfa : TokensDFA
  deriving DecidableEq

/-- `V2Index::next_state` (`src/v2_index.rs` lines 45-51): `None` (no
panic) on the EOS token id, otherwise the table's `next_state` with its
possible panic (outer `Option`). -/
def V2Index.next_state (idx : V2Index) (state : StateId) (token_id : TokenId) :
    Option (Option StateId) :=
  if token_id = idx.tokens_dfa.eos_token_id then some none
  else idx.tokens_dfa.transitions_table.next_state state token_id

/-- `V2Index::allowed_tokens` (`src/v2_index.rs` lines 41-43). -/
def V2Index.allowed_tokens (idx : V2Index) (state : StateId) : Option (List Nat) :=
  idx.tokens_dfa.transitions_table.allowed_transitions state

/-- A tiny concrete `MasksTable` used to witness the out-of-range
behavior of its read API. -/
def mtEx : MasksTable where
  vocab_len := 2
  eos_token_class_id := 1
  equivalent_grid := { class_id_by_token_id := [0, 1] }
  masks := [[1]]
  next_states := [[(0, 0)]]

/-- A concrete `V2Index` over `mtEx`. -/
def v2Ex : V2Index where
  tokens_dfa :=
    { eos_token_id := 1
      eos_class_id := 1
      start_state := 0
      final_states := [0]
      transitions_table := mtEx }

/-- JSON values (`serde_json::Value`).  Objects are association lists;
`serde_json::Map` is a `BTreeMap` iterating in ascending key order, so
object literals in this file are written with their keys already in
that order.  Numbers are restricted to naturals: every number the
translator consults (length / digit / item bounds, depth counters) is a
non-negative integer, on which the source's `as_u64`/`as_f64` readings
agree. -/
inductive Value where
  | null
  | bool (b : Bool)
  | num (n : Nat)
  | str (s : String)
  | arr (items : List Value)
  | obj (fields : List (String × Value))

/-- `Value::get` with a string key: field lookup on objects, `None` on
any other value. -/
def Value.get? (v : Value) (key : String) : Option Value :=
  match v with
  | .obj fields => lookupA fields key
  | _ => none

/-- `Value::as_str`. -/
def Value.as_str : Value → Option String
  | .str s => some s
  | _ => none

/-- `Value::as_u64` (on the natural-number fragment). -/
def Value.as_u64 : Value → Option Nat
  | .num n => some n
  | _ => none

/-- `Value::as_array`. -/
def Value.as_array : Value → Option (List Value)
  | .arr items => some items
  | _ => none

/-- `Value::as_object`. -/
def Value.as_object : Value → Option (List (String × Value))
  | .obj fields => some fields
  | _ => none

/-- JSON string escaping of `serde_json::to_string` restricted to
quote and backslash (the translator's inputs contain no control
characters). -/
def jsonEscapeString (s : String) : String :=
  String.join (s.toList.map (fun c =>
    if c = '"' then "\\\"" else if c = '\\' then "\\\\" else String.singleton c))

mutual

/-- Compact serialization of a value, as `serde_json::to_string` and
the `Display` used in error messages produce. -/
def jsonDump : Value → String
  | .null => "null"
  | .bool true => "true"
  | .bool false => "false"
  | .num n => toString n
  | .str s => "\"" ++ jsonEscapeString s ++ "\""
  | .arr items => "[" ++ jsonDumpList items ++ "]"
  | .obj fields => "\x7b" ++ jsonDumpFields fields ++ "\x7d"

def jsonDumpList : List Value → String
  | [] => ""
  | [v] => jsonDump v
  | v :: rest => jsonDump v ++ "," ++ jsonDumpList rest

def jsonDumpFields : List (String × Value) → String
  | [] => ""
  | [(k, v)] => "\"" ++ jsonEscapeString k ++ "\":" ++ jsonDump v
  | (k, v) :: rest => "\"" ++ jsonEscapeString k ++ "\":" ++ jsonDump v ++ "," ++ jsonDumpFields rest

end

/-- `regex::escape` of the external `regex` crate: a backslash before
every meta character. -/
def regexEscape (s : String) : String :=
  String.join (s.toList.map (fun c =>
    if c ∈ ['\\', '.', '+', '*', '?', '(', ')', '|', '[', ']', '\x7b', '\x7d',
        '^', '$', '#', '&', '-', '~'] then
      "\\" ++ String.singleton c
    else String.singleton c))

/-- `STRING_INNER` (`src/json_schema.rs` line 9). -/
def STRING_INNER : String := "([^\"\\\\\\x00-\\x1F\\x7F-\\x9F]|\\\\[\"\\\\])"

/-- `STRING` (line 10). -/
def STRING : String := "\"([^\"\\\\\\x00-\\x1F\\x7F-\\x9F]|\\\\[\"\\\\])*\""

/-- `INTEGER` (line 12). -/
def INTEGER : String := "(-)?(0|[1-9][0-9]*)"

/-- `NUMBER` (line 13). -/
def NUMBER : String := "((-)?(0|[1-9][0-9]*))(\\.[0-9]+)?([eE][+-][0-9]+)?"

/-- `BOOLEAN` (line 14). -/
def BOOLEAN : String := "(true|false)"

/-- `NULL` (line 15). -/
def NULL : String := "null"

/-- `WHITESPACE` (line 17). -/
def WHITESPACE : String := "[ ]?"

/-- `DATE_TIME` (line 40). -/
def DATE_TIME : String :=
  "\"(-?(?:[1-9][0-9]*)?[0-9]\x7b4\x7d)-(1[0-2]|0[1-9])-(3[01]|0[1-9]|[12][0-9])T(2[0-3]|[01][0-9]):([0-5][0-9]):([0-5][0-9])(\\.[0-9]\x7b3\x7d)?(Z)?\""

/-- `DATE` (line 41). -/
def DATE : String := "\"(?:\\d\x7b4\x7d)-(?:0[1-9]|1[0-2])-(?:0[1-9]|[1-2][0-9]|3[0-1])\""

/-- `TIME` (line 42). -/
def TIME : String := "\"(2[0-3]|[01][0-9]):([0-5][0-9]):([0-5][0-9])(\\\\.[0-9]+)?(Z)?\""

/-- `UUID` (line 43). -/
def UUID : String :=
  "\"[0-9a-f]\x7b8\x7d-[0-9a-f]\x7b4\x7d-[0-9a-f]\x7b4\x7d-[0-9a-f]\x7b4\x7d-[0-9a-f]\x7b12\x7d\""

/-- `JsonType::to_regex` (lines 28-38) combined with the type-name
dispatch strings. -/
inductive JsonType where
  | string
  | integer
  | number
  | boolean
  | null
  deriving DecidableEq

def JsonType.to_regex : JsonType → String
  | .string => STRING
  | .integer => INTEGER
  | .number => NUMBER
  | .boolean => BOOLEAN
  | .null => NULL

/-- `FormatType` and its `from_str`/`to_regex` (lines 45-72). -/
inductive FormatType where
  | DateTime
  | Date
  | Time
  | Uuid
  deriving DecidableEq

def FormatType.to_regex : FormatType → String
  | .DateTime => DATE_TIME
  | .Date => DATE
  | .Time => TIME
  | .Uuid => UUID

def FormatType.from_str (s : String) : Option FormatType :=
  if s = "date-time" then some .DateTime
  else if s = "date" then some .Date
  else if s = "time" then some .Time
  else if s = "uuid" then some .Uuid
  else none

/-- `SchemaKeyword` (lines 74-86). -/
inductive SchemaKeyword where
  | Properties
  | AllOf
  | AnyOf
  | OneOf
  | PrefixItems
  | Enum
  | Const
  | Ref
  | Type
  | EmptyObject
  deriving DecidableEq

/-- `resolve_local_ref` (lines 384-392). -/
def resolve_local_ref : Value → List String → Except String Value
  | current, [] => Except.ok current
  | current, part :: rest =>
    match current.get? part with
    | none => Except.error ("Invalid reference path: " ++ part)
    | some nxt => resolve_local_ref nxt rest

/-- `NonZeroU64::new`: `none` exactly on zero. -/
def nzNew (n : Nat) : Option Nat :=
  if n = 0 then none else some n

/-- The derived `PartialOrd` comparison `max < min` on
`Option<NonZeroU64>` used in `validate_quantifiers` (`None` sorts below
`Some`). -/
def optLt : Option Nat → Option Nat → Bool
  | none, none => false
  | none, some _ => true
  | some _, none => false
  | some a, some b => a < b

/-- `validate_quantifiers` (lines 701-718). -/
def validate_quantifiers (min_bound max_bound : Option Nat) (start_offset : Nat) :
    Except String (Option Nat × Option Nat) :=
  let min_bound := min_bound.map (fun n => nzNew (n - start_offset))
  let max_bound := max_bound.map (fun n => nzNew (n - start_offset))
  match min_bound, max_bound with
  | some mi, some ma =>
    if optLt ma mi then
      Except.error "max bound must be greater than or equal to min bound"
    else Except.ok (mi, ma)
  | mi, ma => Except.ok (mi.join, ma.join)

/-- `get_num_items_pattern` (lines 720-737). -/
def get_num_items_pattern (min_items max_items : Option Nat) : Option String :=
  let min_items := min_items.getD 0
  match max_items with
  | none => some ("\x7b" ++ toString (min_items - 1) ++ ",\x7d")
  | some max_items =>
    if max_items < 1 then none
    else some ("\x7b" ++ toString (min_items - 1) ++ "," ++ toString (max_items - 1) ++ "\x7d")

/-- The derived `PartialOrd` test `min.as_f64() > max.as_f64()` on
`Option<f64>` used in `handle_string_type` (agreeing with `Nat` on the
natural-number fragment; `None` sorts below `Some`). -/
def optGt : Option Nat → Option Nat → Bool
  | some a, some b => b < a
  | some _, none => true
  | none, _ => false

/-- `str::starts_with`, implemented over the character list so that it
reduces in the kernel. -/
def strStartsWith (s pre : String) : Bool :=
  pre.toList.isPrefixOf s.toList

/-- `str::ends_with`, implemented reducibly. -/
def strEndsWith (s suf : String) : Bool :=
  suf.toList.isSuffixOf s.toList

/-- Drop the first `n` characters (byte and character indices agree on
the ASCII inputs used here), implemented reducibly. -/
def strDrop (s : String) (n : Nat) : String :=
  String.mk (s.toList.drop n)

/-- Drop the last `n` characters, implemented reducibly. -/
def strDropRight (s : String) (n : Nat) : String :=
  String.mk (s.toList.reverse.drop n |>.reverse)

/-- `str::split` on a single character (Rust semantics: the empty
string yields one empty piece, a trailing separator yields a trailing
empty piece), implemented reducibly. -/
def splitCharAux (c : Char) : List Char → List Char → List String
  | [], acc => [String.mk acc.reverse]
  | x :: rest, acc =>
    if x = c then String.mk acc.reverse :: splitCharAux c rest []
    else splitCharAux c rest (x :: acc)

def splitChar (s : String) (c : Char) : List String :=
  splitCharAux c s.toList []

/-- `Value::as_f64` restricted to the natural-number fragment, on which
it agrees with `as_u64`. -/
def Value.as_f64 : Value → Option Nat :=
  Value.as_u64

/-- `handle_boolean_type` (lines 438-441). -/
def handle_boolean_type : Except String String :=
  Except.ok JsonType.boolean.to_regex

/-- `handle_null_type` (lines 443-446). -/
def handle_null_type : Except String String :=
  Except.ok JsonType.null.to_regex

/-- `handle_string_type` (lines 448-490).  Byte-indexed slicing of the
`pattern` string is rendered with character indices (they agree on
ASCII patterns). -/
def handle_string_type (obj : List (String × Value)) : Except String String :=
  if (lookupA obj "maxLength").isSome || (lookupA obj "minLength").isSome then
    let max_items := lookupA obj "maxLength"
    let min_items := lookupA obj "minLength"
    let bad :=
      match min_items, max_items with
      | some mi, some ma => optGt mi.as_f64 ma.as_f64
      | _, _ => false
    if bad then
      Except.error "maxLength must be greater than or equal to minLength"
    else
      let formatted_max := ((max_items.bind Value.as_u64).map toString).getD ""
      let formatted_min := ((min_items.bind Value.as_u64).map toString).getD ""
      Except.ok ("\"" ++ STRING_INNER ++ "\x7b" ++ formatted_min ++ "," ++ formatted_max
        ++ "\x7d\"")
  else
    match (lookupA obj "pattern").bind Value.as_str with
    | some pat =>
      if strStartsWith pat "^" && strEndsWith pat "$" then
        Except.ok ("(\"" ++ strDropRight (strDrop pat 1) 1 ++ "\")")
      else
        Except.ok ("(\"" ++ pat ++ "\")")
    | none =>
      match (lookupA obj "format").bind Value.as_str with
      | some format =>
        match FormatType.from_str format with
        | some format_type => Except.ok format_type.to_regex
        | none => Except.error ("Format " ++ format ++ " is not supported by Outlines")
      | none => Except.ok JsonType.string.to_regex

/-- `handle_number_type` (lines 492-551). -/
def handle_number_type (obj : List (String × Value)) : Except String String :=
  let has_bounds :=
    ["minDigitsInteger", "maxDigitsInteger", "minDigitsFraction", "maxDigitsFraction",
      "minDigitsExponent", "maxDigitsExponent"].any (fun key => (lookupA obj key).isSome)
  if has_bounds then do
    let (min_digits_integer, max_digits_integer) ← validate_quantifiers
      ((lookupA obj "minDigitsInteger").bind Value.as_u64)
      ((lookupA obj "maxDigitsInteger").bind Value.as_u64) 1
    let (min_digits_fraction, max_digits_fraction) ← validate_quantifiers
      ((lookupA obj "minDigitsFraction").bind Value.as_u64)
      ((lookupA obj "maxDigitsFraction").bind Value.as_u64) 0
    let (min_digits_exponent, max_digits_exponent) ← validate_quantifiers
      ((lookupA obj "minDigitsExponent").bind Value.as_u64)
      ((lookupA obj "maxDigitsExponent").bind Value.as_u64) 0
    let integers_quantifier :=
      match min_digits_integer, max_digits_integer with
      | some mi, some ma => "\x7b" ++ toString mi ++ "," ++ toString ma ++ "\x7d"
      | some mi, none => "\x7b" ++ toString mi ++ ",\x7d"
      | none, some ma => "\x7b1," ++ toString ma ++ "\x7d"
      | none, none => "*"
    let fraction_quantifier :=
      match min_digits_fraction, max_digits_fraction with
      | some mi, some ma => "\x7b" ++ toString mi ++ "," ++ toString ma ++ "\x7d"
      | some mi, none => "\x7b" ++ toString mi ++ ",\x7d"
      | none, some ma => "\x7b," ++ toString ma ++ "\x7d"
      | none, none => "+"
    let exponent_quantifier :=
      match min_digits_exponent, max_digits_exponent with
      | some mi, some ma => "\x7b" ++ toString mi ++ "," ++ toString ma ++ "\x7d"
      | some mi, none => "\x7b" ++ toString mi ++ ",\x7d"
      | none, some ma => "\x7b," ++ toString ma ++ "\x7d"
      | none, none => "+"
    Except.ok ("((-)?(0|[1-9][0-9]" ++ integers_quantifier ++ "))(\\.[0-9]"
      ++ fraction_quantifier ++ ")?([eE][+-][0-9]" ++ exponent_quantifier ++ ")?")
  else
    Except.ok JsonType.number.to_regex

/-- `handle_integer_type` (lines 552-572). -/
def handle_integer_type (obj : List (String × Value)) : Except String String :=
  if (lookupA obj "minDigits").isSome || (lookupA obj "maxDigits").isSome then do
    let (min_digits, max_digits) ← validate_quantifiers
      ((lookupA obj "minDigits").bind Value.as_u64)
      ((lookupA obj "maxDigits").bind Value.as_u64) 1
    let quantifier :=
      match min_digits, max_digits with
      | some mi, some ma => "\x7b" ++ toString mi ++ "," ++ toString ma ++ "\x7d"
      | some mi, none => "\x7b" ++ toString mi ++ ",\x7d"
      | none, some ma => "\x7b," ++ toString ma ++ "\x7d"
      | none, none => "*"
    Except.ok ("(-)?(0|[1-9][0-9]" ++ quantifier ++ ")")
  else
    Except.ok JsonType.integer.to_regex

/-- `handle_enum` (lines 330-349); the `{:?}` debug rendering in the
error message is approximated by the compact JSON dump. -/
def handle_enum (obj : List (String × Value)) : Except String String :=
  match lookupA obj "enum" with
  | some (Value.arr enum_values) => do
    let choices ← enum_values.mapM (fun choice =>
      match choice with
      | Value.null | Value.bool _ | Value.num _ | Value.str _ =>
        Except.ok (regexEscape (jsonDump choice))
      | _ => Except.error ("Unsupported data type in enum: " ++ jsonDump choice))
    Except.ok ("(" ++ String.intercalate "|" choices ++ ")")
  | _ => Except.error "'enum' must be an array"

/-- `handle_const` (lines 351-362); debug rendering approximated as in
`handle_enum`. -/
def handle_const (obj : List (String × Value)) : Except String String :=
  match lookupA obj "const" with
  | some const_value =>
    match const_value with
    | Value.null | Value.bool _ | Value.num _ | Value.str _ =>
      Except.ok (regexEscape (jsonDump const_value))
    | _ => Except.error ("Unsupported data type in const: " ++ jsonDump const_value)
  | none => Except.error "'const' key not found in object"

/-- The type of the recursive translator threaded through the handlers
(the handlers of `json_schema.rs` call back into `to_regex`; passing
the recursion explicitly keeps the embedding structurally recursive on
fuel). -/
abbrev ToRegexFn := Value → Option String → Value → Option (Except String String)

/-- Sequential `to_regex` over a list of subschemas, as the handlers'
`collect::<Result<Vec<_>>>` does (first error wins). -/
def to_regex_list (tr : ToRegexFn) : List Value → Option String → Value →
    Option (Except String (List String))
  | [], _, _ => some (Except.ok [])
  | v :: rest, ws, full =>
    match tr v ws full with
    | none => none
    | some (Except.error e) => some (Except.error e)
    | some (Except.ok r) =>
      match to_regex_list tr rest ws full with
      | none => none
      | some (Except.error e) => some (Except.error e)
      | some (Except.ok rs) => some (Except.ok (r :: rs))

/-- `handle_properties` (lines 151-237). -/
def handle_properties (tr : ToRegexFn) (obj : List (String × Value))
    (whitespace_pattern : String) (full_schema : Value) : Option (Except String String) :=
  match (lookupA obj "properties").bind Value.as_object with
  | none => some (Except.error "'properties' not found or not an object")
  | some properties =>
    let required_properties :=
      (((lookupA obj "required").bind Value.as_array).map
        (fun arr => arr.filterMap Value.as_str)).getD []
    let is_required := properties.map (fun item => decide (item.1 ∈ required_properties))
    if is_required.any id then
      let last_required_pos :=
        (((is_required.enum.filter (fun p => p.2)).map (fun p => p.1)).max?).getD 0
      match to_regex_list tr (properties.map Prod.snd) (some whitespace_pattern)
          full_schema with
      | none => none
      | some (Except.error e) => some (Except.error e)
      | some (Except.ok vals) =>
        let body := String.join (((properties.zip vals).enum).map (fun q =>
          let i := q.1
          let name := q.2.1.1
          let vreg := q.2.2
          let subregex := whitespace_pattern ++ "\"" ++ regexEscape name ++ "\""
            ++ whitespace_pattern ++ ":" ++ whitespace_pattern ++ vreg
          let subregex :=
            if i < last_required_pos then subregex ++ whitespace_pattern ++ ","
            else if i > last_required_pos then whitespace_pattern ++ "," ++ subregex
            else subregex
          if is_required.getD i false then subregex else "(" ++ subregex ++ ")?"))
        some (Except.ok ("\\\x7b" ++ body ++ whitespace_pattern ++ "\\\x7d"))
    else
      match to_regex_list tr ((properties.reverse).map Prod.snd) (some whitespace_pattern)
          full_schema with
      | none => none
      | some (Except.error e) => some (Except.error e)
      | some (Except.ok vals) =>
        let property_subregexes := ((properties.reverse).zip vals).map (fun q =>
          whitespace_pattern ++ "\"" ++ regexEscape q.1.1 ++ "\"" ++ whitespace_pattern
            ++ ":" ++ whitespace_pattern ++ q.2)
        let possible_patterns := (List.range property_subregexes.length).map (fun i =>
          String.join ((property_subregexes.take i).map
            (fun sub => "(" ++ sub ++ whitespace_pattern ++ ",)?"))
          ++ property_subregexes.getD i ""
          ++ String.join ((property_subregexes.drop (i + 1)).map
            (fun sub => "(" ++ whitespace_pattern ++ "," ++ sub ++ ")?")))
        some (Except.ok ("\\\x7b" ++ "(" ++ String.intercalate "|" possible_patterns ++ ")?"
          ++ whitespace_pattern ++ "\\\x7d"))

/-- `handle_all_of` (lines 239-258): the subschema regexes joined with
the empty string, wrapped in one parenthesized group. -/
def handle_all_of (tr : ToRegexFn) (obj : List (String × Value))
    (whitespace_pattern : String) (full_schema : Value) : Option (Except String String) :=
  match lookupA obj "allOf" with
  | some (Value.arr all_of) =>
    match to_regex_list tr all_of (some whitespace_pattern) full_schema with
    | none => none
    | some (Except.error e) => some (Except.error e)
    | some (Except.ok subregexes) =>
      some (Except.ok ("(" ++ String.join subregexes ++ ")"))
  | _ => some (Except.error "'allOf' must be an array")

/-- `handle_any_of` (lines 260-278). -/
def handle_any_of (tr : ToRegexFn) (obj : List (String × Value))
    (whitespace_pattern : String) (full_schema : Value) : Option (Except String String) :=
  match lookupA obj "anyOf" with
  | some (Value.arr any_of) =>
    match to_regex_list tr any_of (some whitespace_pattern) full_schema with
    | none => none
    | some (Except.error e) => some (Except.error e)
    | some (Except.ok subregexes) =>
      some (Except.ok ("(" ++ String.intercalate "|" subregexes ++ ")"))
  | _ => some (Except.error "'anyOf' must be an array")

/-- `handle_one_of` (lines 280-303). -/
def handle_one_of (tr : ToRegexFn) (obj : List (String × Value))
    (whitespace_pattern : String) (full_schema : Value) : Option (Except String String) :=
  match lookupA obj "oneOf" with
  | some (Value.arr one_of) =>
    match to_regex_list tr one_of (some whitespace_pattern) full_schema with
    | none => none
    | some (Except.error e) => some (Except.error e)
    | some (Except.ok subregexes) =>
      some (Except.ok ("(" ++ String.intercalate "|"
        (subregexes.map (fun subregex => "(?:" ++ subregex ++ ")")) ++ ")"))
  | _ => some (Except.error "'oneOf' must be an array")

/-- `handle_prefix_items` (lines 305-328). -/
def handle_prefix_items (tr : ToRegexFn) (obj : List (String × Value))
    (whitespace_pattern : String) (full_schema : Value) : Option (Except String String) :=
  match lookupA obj "prefixItems" with
  | some (Value.arr prefix_items) =>
    match to_regex_list tr prefix_items (some whitespace_pattern) full_schema with
    | none => none
    | some (Except.error e) => some (Except.error e)
    | some (Except.ok element_patterns) =>
      let comma_split_pattern := whitespace_pattern ++ "," ++ whitespace_pattern
      let tuple_inner := String.intercalate comma_split_pattern element_patterns
      some (Except.ok ("\\[" ++ whitespace_pattern ++ tuple_inner ++ whitespace_pattern
        ++ "\\]"))
  | _ => some (Except.error "'prefixItems' must be an array")

/-- `handle_ref` (lines 364-382): resolves the reference against the
document root and recurses on the referenced schema, with no depth
cap.  The missing-key map-index panic is the outer `none`
(unreachable through the dispatcher). -/
def handle_ref (tr : ToRegexFn) (obj : List (String × Value))
    (whitespace_pattern : String) (full_schema : Value) : Option (Except String String) :=
  match lookupA obj "$ref" with
  | none => none
  | some v =>
    match v.as_str with
    | none => some (Except.error "'$ref' must be a string")
    | some ref_path =>
      if !strStartsWith ref_path "#/" then
        some (Except.error "Only local references are supported")
      else
        let path_parts := splitChar (strDrop ref_path 2) '/' 
        match resolve_local_ref full_schema path_parts with
        | Except.error e => some (Except.error e)
        | Except.ok referenced_schema =>
          tr referenced_schema (some whitespace_pattern) full_schema

/-- `handle_empty_object` (lines 414-436). -/
def handle_empty_object (tr : ToRegexFn) (whitespace_pattern : String)
    (full_schema : Value) : Option (Except String String) :=
  let types := [Value.obj [("type", Value.str "boolean")],
    Value.obj [("type", Value.str "null")],
    Value.obj [("type", Value.str "number")],
    Value.obj [("type", Value.str "integer")],
    Value.obj [("type", Value.str "string")],
    Value.obj [("type", Value.str "array")],
    Value.obj [("type", Value.str "object")]]
  match to_regex_list tr types (some whitespace_pattern) full_schema with
  | none => none
  | some (Except.error e) => some (Except.error e)
  | some (Except.ok regexes) =>
    some (Except.ok (String.intercalate "|" (regexes.map (fun r => "(" ++ r ++ ")"))))

/-- `handle_array_type` (lines 642-697). -/
def handle_array_type (tr : ToRegexFn) (obj : List (String × Value))
    (whitespace_pattern : String) (full_schema : Value) : Option (Except String String) :=
  let num_repeats := (get_num_items_pattern ((lookupA obj "minItems").bind Value.as_u64)
    ((lookupA obj "maxItems").bind Value.as_u64)).getD ""
  if num_repeats.isEmpty then
    some (Except.ok ("\\[" ++ whitespace_pattern ++ "\\]"))
  else
    let allow_empty :=
      if (((lookupA obj "minItems").bind Value.as_u64).getD 0) = 0 then "?" else ""
    match lookupA obj "items" with
    | some items =>
      match tr items (some whitespace_pattern) full_schema with
      | none => none
      | some (Except.error e) => some (Except.error e)
      | some (Except.ok items_regex) =>
        some (Except.ok ("\\[" ++ whitespace_pattern ++ "((" ++ items_regex ++ ")(,"
          ++ whitespace_pattern ++ "(" ++ items_regex ++ "))" ++ num_repeats ++ ")"
          ++ allow_empty ++ whitespace_pattern ++ "\\]"))
    | none =>
      let depth := (((lookupA obj "depth").bind Value.as_u64).getD 2)
      let legal_types := [Value.obj [("type", Value.str "boolean")],
        Value.obj [("type", Value.str "null")],
        Value.obj [("type", Value.str "number")],
        Value.obj [("type", Value.str "integer")],
        Value.obj [("type", Value.str "string")]] ++
        (if 0 < depth then
          [Value.obj [("depth", Value.num (depth - 1)), ("type", Value.str "object")],
            Value.obj [("depth", Value.num (depth - 1)), ("type", Value.str "array")]]
        else [])
      match to_regex_list tr legal_types (some whitespace_pattern) full_schema with
      | none => none
      | some (Except.error e) => some (Except.error e)
      | some (Except.ok regexes) =>
        let regexes_joined := String.intercalate "|" regexes
        some (Except.ok ("\\[" ++ whitespace_pattern ++ "((" ++ regexes_joined ++ ")(,"
          ++ whitespace_pattern ++ "(" ++ regexes_joined ++ "))" ++ num_repeats ++ ")"
          ++ allow_empty ++ whitespace_pattern ++ "\\]"))

/-- `handle_object_type` (lines 573-640); the source's
`value_pattern.unwrap()` panic on an inner error is the outer `none`. -/
def handle_object_type (tr : ToRegexFn) (obj : List (String × Value))
    (whitespace_pattern : String) (full_schema : Value) : Option (Except String String) :=
  let min_properties := (lookupA obj "minProperties").bind Value.as_u64
  let max_properties := (lookupA obj "maxProperties").bind Value.as_u64
  let num_repeats := get_num_items_pattern min_properties max_properties
  if num_repeats.isNone then
    some (Except.ok ("\\\x7b" ++ whitespace_pattern ++ "\x7d"))
  else
    let allow_empty := if min_properties.getD 0 = 0 then "?" else ""
    let additional_properties := lookupA obj "additionalProperties"
    let unconstrained : Option (Except String String) :=
      let depth := (((lookupA obj "depth").bind Value.as_u64).getD 2)
      let legal_types := [Value.obj [("type", Value.str "string")],
        Value.obj [("type", Value.str "number")],
        Value.obj [("type", Value.str "boolean")],
        Value.obj [("type", Value.str "null")]] ++
        (if 0 < depth then
          [Value.obj [("depth", Value.num (depth - 1)), ("type", Value.str "object")],
            Value.obj [("depth", Value.num (depth - 1)), ("type", Value.str "array")]]
        else [])
      tr (Value.obj [("anyOf", Value.arr legal_types)]) (some whitespace_pattern)
        full_schema
    let value_pattern_result :=
      match additional_properties with
      | none => unconstrained
      | some (Value.bool true) => unconstrained
      | some ap => tr ap (some whitespace_pattern) full_schema
    match value_pattern_result with
    | none => none
    | some (Except.error _) => none
    | some (Except.ok value_pattern) =>
      let key_value_pattern := STRING ++ whitespace_pattern ++ ":" ++ whitespace_pattern
        ++ value_pattern
      let key_value_successor_pattern := whitespace_pattern ++ "," ++ whitespace_pattern
        ++ key_value_pattern
      let multiple_key_value_pattern := "(" ++ key_value_pattern ++ "("
        ++ key_value_successor_pattern ++ ")\x7b0,\x7d)" ++ allow_empty
      some (Except.ok ("\\\x7b" ++ whitespace_pattern ++ multiple_key_value_pattern
        ++ whitespace_pattern ++ "\\\x7d"))

/-- `handle_type` (lines 394-412). -/
def handle_type (tr : ToRegexFn) (obj : List (String × Value))
    (whitespace_pattern : String) (full_schema : Value) : Option (Except String String) :=
  match lookupA obj "type" with
  | none => none
  | some tv =>
    match tv.as_str with
    | none => some (Except.error "'type' must be a string")
    | some instance_type =>
      if instance_type = "string" then some (handle_string_type obj)
      else if instance_type = "number" then some (handle_number_type obj)
      else if instance_type = "integer" then some (handle_integer_type obj)
      else if instance_type = "array" then
        handle_array_type tr obj whitespace_pattern full_schema
      else if instance_type = "object" then
        handle_object_type tr obj whitespace_pattern full_schema
      else if instance_type = "boolean" then some handle_boolean_type
      else if instance_type = "null" then some handle_null_type
      else some (Except.error ("Unsupported type: " ++ instance_type))

/-- `to_regex` (`src/json_schema.rs` lines 96-149): dispatch on the
first keyword present.  The fuel bounds the recursion depth (the
source recursion is unbounded, see `handle_ref`); the outer `none` is
fuel exhaustion or a source panic (`unwrap`, map indexing). -/
def to_regex : Nat → Value → Option String → Value → Option (Except String String)
  | 0, _, _, _ => none
  | fuel + 1, json, whitespace_pattern, full_schema =>
    let ws := whitespace_pattern.getD WHITESPACE
    match json with
    | Value.obj obj =>
      let keyword :=
        if obj.isEmpty then some SchemaKeyword.EmptyObject
        else
          [("properties", SchemaKeyword.Properties), ("allOf", SchemaKeyword.AllOf),
            ("anyOf", SchemaKeyword.AnyOf), ("oneOf", SchemaKeyword.OneOf),
            ("prefixItems", SchemaKeyword.PrefixItems), ("enum", SchemaKeyword.Enum),
            ("const", SchemaKeyword.Const), ("$ref", SchemaKeyword.Ref),
            ("type", SchemaKeyword.Type)].findSome?
            (fun p => if (lookupA obj p.1).isSome then some p.2 else none)
      match keyword with
      | none =>
        some (Except.error ("Unsupported JSON Schema structure " ++ jsonDump (Value.obj obj)
          ++ " \nMake sure it is valid to the JSON Schema specification and check if it's supported by Outlines.\nIf it should be supported, please open an issue."))
      | some SchemaKeyword.Properties => handle_properties (to_regex fuel) obj ws full_schema
      | some SchemaKeyword.AllOf => handle_all_of (to_regex fuel) obj ws full_schema
      | some SchemaKeyword.AnyOf => handle_any_of (to_regex fuel) obj ws full_schema
      | some SchemaKeyword.OneOf => handle_one_of (to_regex fuel) obj ws full_schema
      | some SchemaKeyword.PrefixItems =>
        handle_prefix_items (to_regex fuel) obj ws full_schema
      | some SchemaKeyword.Enum => some (handle_enum obj)
      | some SchemaKeyword.Const => some (handle_const obj)
      | some SchemaKeyword.Ref => handle_ref (to_regex fuel) obj ws full_schema
      | some SchemaKeyword.Type => handle_type (to_regex fuel) obj ws full_schema
      | some SchemaKeyword.EmptyObject =>
        handle_empty_object (to_regex fuel) ws full_schema
    | _ => some (Except.error "Invalid JSON Schema: expected an object")

/-- A self-referential schema: `{"$ref": "#/definitions/a"}` where the
document root binds `definitions.a` to this same schema. -/
def schemaCyc : Value := Value.obj [("$ref", Value.str "#/definitions/a")]

/-- The document root of the cyclic reference example. -/
def fullCyc : Value := Value.obj [("definitions", Value.obj [("a", schemaCyc)])]

/-- A `$ref` chain four references deep ending at `{"type":
"boolean"}` (the root refers to `r1`, `r1` to `r2`, and so on). -/
def refChainFull : Value := Value.obj [
  ("$ref", Value.str "#/d/r1"),
  ("d", Value.obj [
    ("r1", Value.obj [("$ref", Value.str "#/d/r2")]),
    ("r2", Value.obj [("$ref", Value.str "#/d/r3")]),
    ("r3", Value.obj [("$ref", Value.str "#/d/r4")]),
    ("r4", Value.obj [("type", Value.str "boolean")])])]

/-- `{"allOf": [{"type": "boolean"}, {"type": "null"}]}`. -/
def allOfEx : Value := Value.obj [("allOf", Value.arr [
  Value.obj [("type", Value.str "boolean")], Value.obj [("type", Value.str "null")]])]

/-- `{"allOf": "x"}` — the keyword present but not an array. -/
def allOfBad : Value := Value.obj [("allOf", Value.str "x")]

/-- A `TokenClass` (`src/tokens_dfa/token_classes.rs`): a token's byte
string rewritten under the DFA's byte partition. -/
abbrev TokenClass := List Nat

/-- `TokenClass::from_token_with_classes` /
`reduce.rs::get_token_class`. -/
def get_token_class (token : Token) (byte_classes : Nat → Nat) : TokenClass :=
  token.map byte_classes

/-- Stable insertion preserving the relative order of equal keys, the
behavior of `Vec::sort_by_key` (a stable sort). -/
def insertStableByKey {α : Type} (f : α → Nat) : List α → α → List α
  | [], x => [x]
  | y :: rest, x => if f y ≤ f x then y :: insertStableByKey f rest x else x :: y :: rest

/-- `Vec::sort_by_key` (stable). -/
def stableSortByKey {α : Type} (f : α → Nat) (l : List α) : List α :=
  l.foldl (insertStableByKey f) []

/-- `TokenIdsByClass::add_token_id` (`token_classes.rs` lines 181-189):
grow the outer vector up to `class_id` and push the token id. -/
def addTokenId (l : List (List TokenId)) (class_id : TokenClassId) (token_id : TokenId) :
    List (List TokenId) :=
  let l := if l.length ≤ class_id then l ++ List.replicate (class_id + 1 - l.length) [] else l
  l.set class_id ((l.getD class_id []) ++ [token_id])

/-- `MapTokenClassTokenClassId::insert` (`token_classes.rs` lines
157-161): intern a class, the fresh id being the current size. -/
def mapTCCInsert (m : List (TokenClass × TokenClassId)) (c : TokenClass) :
    List (TokenClass × TokenClassId) × TokenClassId :=
  match lookupA m c with
  | some id => (m, id)
  | none => (m ++ [(c, m.length)], m.length)

/-- The transition store threaded through the `TokensDFA` pipeline.  It
merges `MasksTable` of `src/tokens_dfa/transitions_table.rs`
(`temp_transitions`, `masks`, `next_states`, `reduce`, `next_state`,
`allowed_transitions`) with the token-class tables of
`token_classes.rs` (`TokenClasses`, `TokenIdsByClass`).  Modelled from
the spec: the accessors `get_token_classes` and
`get_token_ids_by_class` that `reduce.rs` calls on the table are not
under `src/`; per spec §3 they expose exactly the `class_of` and
`tokens_in` tables of the `EquivalentGrid`, which are the two
token-class structures of `token_classes.rs` carried here. -/
structure PMasksTable where
  vocab_len : Nat
  eos_token_class_id : TokenClassId
  token_classes : List (TokenId × TokenClassId)
  token_ids_by_class : List (List TokenId)
  masks : List (List Nat)
  next_states : List (List (TokenClassId × StateId))
  temp_transitions : List (List (TokenClassId × StateId))
  deriving DecidableEq

/-- `MasksTable::new` (`transitions_table.rs` lines 169-179). -/
def PMasksTable.new (vocab_len : Nat) : PMasksTable where
  vocab_len := vocab_len
  eos_token_class_id := 0
  token_classes := []
  token_ids_by_class := []
  masks := []
  next_states := []
  temp_transitions := []

/-- `MasksTable::add_transition` (`transitions_table.rs` lines
213-223): grow `temp_transitions` up to the departure state and insert
the class binding. -/
def PMasksTable.add_transition (t : PMasksTable) (departure : StateId)
    (class_id : TokenClassId) (arrival : StateId) : PMasksTable :=
  let temp :=
    if t.temp_transitions.length ≤ departure then
      t.temp_transitions ++
        List.replicate (departure + 1 - t.temp_transitions.length) []
    else t.temp_transitions
  { t with temp_transitions :=
      temp.set departure (insertA (temp.getD departure []) class_id arrival) }

/-- `mask_set_token_id_unchecked` (`transitions_table.rs` lines
321-329): set bit `token_id` in the mask words, indexing the word
vector without a bounds check (`none` = panic). -/
def mask_set_token_id_unchecked (mask : List Nat) (token_id : TokenId) :
    Option (List Nat) :=
  let word_idx := token_id / 64
  let bit_idx := token_id % 64
  if mask.length ≤ word_idx then none
  else some (mask.set word_idx ((mask.getD word_idx 0) ||| (1 <<< bit_idx)))

/-- The per-transition body of `MasksTable::reduce` (lines 274-298):
set the mask bits of every token of the class and store the next state
under the class id, rewritten to a muted token's original class when
the class has exactly one, muted, member.  `none` models the source's
panics (out-of-range class vector or missing `TokenClasses` entry). -/
def reduceClassStep (t : PMasksTable) (muted_list : List TokenId)
    (mask : List Nat) (nexts : List (TokenClassId × StateId))
    (p : TokenClassId × StateId) :
    Option (List Nat × List (TokenClassId × StateId)) :=
  let (class_id, next_state_id) := p
  if t.token_ids_by_class.length ≤ class_id then none
  else
    let tokens := t.token_ids_by_class.getD class_id []
    match tokens.foldl (fun acc token_id => acc.bind
        (fun m => mask_set_token_id_unchecked m token_id)) (some mask) with
    | none => none
    | some mask =>
      match tokens with
      | [t0] =>
        if t0 ∈ muted_list then
          match lookupA t.token_classes t0 with
          | none => none
          | some real_class_id => some (mask, insertA nexts real_class_id next_state_id)
        else some (mask, insertA nexts class_id next_state_id)
      | _ => some (mask, insertA nexts class_id next_state_id)

/-- `MasksTable::reduce` (`transitions_table.rs` lines 259-303).  The
call site in `TokensDFA::new` passes only `muted_list`; the
final-state set, which the body both reads and extends (dead-end
promotion, spec §4.5 phase D), is threaded explicitly. -/
def PMasksTable.reduce (t : PMasksTable) (muted_list : List TokenId)
    (final_states : List StateId) : Option (PMasksTable × List StateId) :=
  let bits_per_state := ((t.vocab_len + 1 + 63) / 64) * 64
  let words_per_state := bits_per_state / 64
  let states := List.range t.temp_transitions.length
  let init : Option (List (List Nat) × List (List (TokenClassId × StateId)) × List StateId) :=
    some ([], [], final_states)
  match states.foldl (fun acc idx => acc.bind (fun st =>
      let (masks, next_states, finals) := st
      let map0 := t.temp_transitions.getD idx []
      let (map1, finals) :=
        if map0.isEmpty then ([(t.eos_token_class_id, idx)], hsInsert finals idx)
        else (map0, finals)
      match map1.foldl (fun acc2 p => acc2.bind (fun q =>
          reduceClassStep t muted_list q.1 q.2 p))
          (some (List.replicate words_per_state 0, [])) with
      | none => none
      | some (mask, nexts) => some (masks ++ [mask], next_states ++ [nexts], finals)))
      init with
  | none => none
  | some (masks, next_states, finals) =>
    some ({ t with
        masks := masks
        next_states := next_states
        temp_transitions := []
        token_ids_by_class := [] }, finals)

/-- `MasksTable::next_state` (`transitions_table.rs` lines 230-235)
over the pipeline store: the class of the token id (a `TokenClasses`
lookup whose `unwrap` panic is `none`), then the unchecked
`next_states` index (`none` = panic), then the map lookup. -/
def PMasksTable.next_state (t : PMasksTable) (state_id : StateId) (token_id : TokenId) :
    Option (Option StateId) :=
  match lookupA t.token_classes token_id with
  | none => none
  | some class_id =>
    if t.next_states.length ≤ state_id then none
    else some (lookupA (t.next_states.getD state_id []) class_id)

/-- `MasksTable::allowed_transitions` (lines 225-228) over the pipeline
store. -/
def PMasksTable.allowed_transitions (t : PMasksTable) (state : StateId) :
    Option (List Nat) :=
  if t.masks.length ≤ state then none else some (t.masks.getD state [])

/-- `l` starts with the bytes `p` (`TokenClass::starts_with` /
`[u8]::starts_with`). -/
def startsWithL : List Nat → List Nat → Bool
  | _, [] => true
  | [], _ :: _ => false
  | a :: l, b :: p => a == b && startsWithL l p

/-- A node of the token-class graph
(`token_classes_graph.rs::TokenClassNode`): a class, its id, and the
children keyed by their class. -/
inductive GNode where
  | node (value : TokenClass) (id : TokenClassId) (leafs : List (TokenClass × GNode))

def GNode.value : GNode → TokenClass
  | .node v _ _ => v

def GNode.id : GNode → TokenClassId
  | .node _ i _ => i

def GNode.leafs : GNode → List (TokenClass × GNode)
  | .node _ _ l => l

/-- The single scan of `TokenClassNode::add_leaf` (lines 55-63): walk
the children in order; stop at the first child that is a prefix of the
new leaf (`found_next`), collecting on the way the children the new
leaf is a prefix of (`leafs_to_remove`). -/
def scanLeafs (leaf_value : TokenClass) :
    List (TokenClass × GNode) → List TokenClass × Option (TokenClass × GNode)
  | [] => ([], none)
  | (v, n) :: rest =>
    if startsWithL leaf_value v then ([], some (v, n))
    else if startsWithL v leaf_value then
      let (rm, fn) := scanLeafs leaf_value rest
      (v :: rm, fn)
    else scanLeafs leaf_value rest

/-- `TokenClassNode::add_leaf` (`token_classes_graph.rs` lines 40-84),
returning the updated node (the source mutates through `RefCell`; its
`bool` return is ignored by every caller).  Fuel bounds the recursion
into a prefix child; `none` = fuel exhausted. -/
def nodeAddLeaf : Nat → GNode → GNode → Option GNode
  | 0, _, _ => none
  | fuel + 1, nd, leaf =>
    if ¬ startsWithL leaf.value nd.value then some nd
    else if (lookupA nd.leafs leaf.value).isSome then some nd
    else
      match scanLeafs leaf.value nd.leafs with
      | (rm, fn) =>
        if ¬ rm.isEmpty then
          let moved := nd.leafs.filter (fun p => rm.contains p.1)
          let leaf2 := GNode.node leaf.value leaf.id
            (moved.foldl (fun acc p => insertA acc p.1 p.2) leaf.leafs)
          some (GNode.node nd.value nd.id
            ((nd.leafs.filter (fun p => ¬ rm.contains p.1)) ++ [(leaf.value, leaf2)]))
        else
          match fn with
          | some (v, n) =>
            match nodeAddLeaf fuel n leaf with
            | none => none
            | some n2 => some (GNode.node nd.value nd.id (insertA nd.leafs v n2))
          | none => some (GNode.node nd.value nd.id (nd.leafs ++ [(leaf.value, leaf)]))

/-- `TokenRootNode::add_leaf` (lines 103-112): graft under the root if
the new class extends it, otherwise make the new class the first node
and re-add the old first node beneath it. -/
def rootAddLeaf (fuel : Nat) (root leaf : GNode) : Option GNode :=
  if startsWithL leaf.value root.value then nodeAddLeaf fuel root leaf
  else nodeAddLeaf fuel leaf root

/-- `token_classes_graph.rs::TokenClassesGraph`: the prefix forest of
token classes.  A root entry's key is the class the root was created
with; its value is the root's (possibly replaced) first node. -/
structure TokenClassesGraph where
  roots : List (TokenClass × GNode)
  class_ids : List (TokenClass × TokenClassId)

def TokenClassesGraph.new : TokenClassesGraph where
  roots := []
  class_ids := []

/-- `TokenClassesGraph::add_class` (lines 132-157): skip known classes,
else try every proper-to-full prefix of the class in increasing length
against the root keys and graft at the first hit; otherwise open a new
root. -/
def TokenClassesGraph.add_class (fuel : Nat) (g : TokenClassesGraph)
    (cls : TokenClass) (class_id : TokenClassId) : Option TokenClassesGraph :=
  if (lookupA g.class_ids cls).isSome then some g
  else
    let g := { g with class_ids := insertA g.class_ids cls class_id }
    let nd := GNode.node cls class_id []
    match (List.range cls.length).findSome?
        (fun k => (lookupA g.roots (cls.take (k + 1))).map
          (fun r => (cls.take (k + 1), r))) with
    | some (p, root) =>
      match rootAddLeaf fuel root nd with
      | none => none
      | some root2 => some { g with roots := insertA g.roots p root2 }
    | none => some { g with roots := insertA g.roots cls nd }

/-- `ReadOnlyTokenClassesGraphIterator` (`token_classes_graph.rs` lines
279-334): a vector of pending nodes popped from the end, plus the node
last handed out. -/
structure GraphIter where
  nodes : List GNode
  current : Option GNode

/-- Shared tail of `init` / `reject_and_advance` / `accept_and_advance`:
`self.current = self.nodes.pop()` and hand out its class and id. -/
def GraphIter.advanceFrom (it : GraphIter) : GraphIter × Option (TokenClass × TokenClassId) :=
  let cur := it.nodes.getLast?
  ({ nodes := it.nodes.dropLast, current := cur },
   cur.map (fun n => (n.value, n.id)))

/-- Iterator `init` (lines 292-301). -/
def GraphIter.init (it : GraphIter) : GraphIter × Option (TokenClass × TokenClassId) :=
  if it.nodes.isEmpty then (it, none) else it.advanceFrom

/-- `reject_and_advance` (lines 310-319), textually `init`. -/
def GraphIter.reject_and_advance (it : GraphIter) :
    GraphIter × Option (TokenClass × TokenClassId) :=
  if it.nodes.isEmpty then (it, none) else it.advanceFrom

/-- `accept_and_advance` (lines 321-333): push the current node's
children, then pop. -/
def GraphIter.accept_and_advance (it : GraphIter) :
    GraphIter × Option (TokenClass × TokenClassId) :=
  match it.current with
  | none => (it, none)
  | some prev => GraphIter.advanceFrom { it with nodes := it.nodes ++ prev.leafs.map (fun p => p.2) }

/-- `has_child` (lines 303-308). -/
def GraphIter.has_child (it : GraphIter) : Bool :=
  match it.current with
  | some n => !n.leafs.isEmpty
  | none => false

/-- The `filter_map` body of `init_classes_and_graph_optimized`
(`reduce.rs` lines 34-46): drop entries containing EOS, drop entries
whose first id is 216 (the hardcoded vocabulary workaround), drop
entries whose class touches a dead byte class unless one of their ids
is an additional (placeholder) id.  Outer `none` models the
`token_ids[0]` panic on an empty id list; inner `none` is a filtered
entry. -/
def initFilterEntry (additionnal_tokens : List (Token × TokenId))
    (byte_classes : Nat → Nat) (dead_byte_classes : List Nat)
    (eos_token_id : TokenId) (p : Token × List TokenId) :
    Option (Option (List TokenId × TokenClass)) :=
  if eos_token_id ∈ p.2 then some none
  else
    match p.2 with
    | [] => none
    | id0 :: _ =>
      if id0 = 216 then some none
      else
        let t_class := get_token_class p.1 byte_classes
        if t_class.any (fun byte => dead_byte_classes.contains byte) &&
           !(p.2.any (fun id => additionnal_tokens.any (fun q => q.2 == id))) then some none
        else some (some (p.2, t_class))

/-- The collected `results` of the filter pass (`reduce.rs` lines
32-47), in vocabulary order. -/
def initResults (tokens : List (Token × List TokenId))
    (additionnal_tokens : List (Token × TokenId)) (byte_classes : Nat → Nat)
    (dead_byte_classes : List Nat) (eos_token_id : TokenId) :
    Option (List (List TokenId × TokenClass)) :=
  tokens.foldl (fun acc p => acc.bind (fun l =>
    (initFilterEntry additionnal_tokens byte_classes dead_byte_classes eos_token_id p).map
      (fun r => match r with
        | none => l
        | some x => l ++ [x]))) (some [])

/-- The per-class body of the main loop of
`init_classes_and_graph_optimized` (`reduce.rs` lines 62-80): intern
the class, record every id in `token_ids_by_class`, bind ids to the
class in `token_classes` unless the class is an additional
(placeholder) class, and add the class to the graph. -/
def initClassStep (additionnal_classes : List TokenClass) (fuel : Nat)
    (st : List (TokenClass × TokenClassId) × TokenClassesGraph × PMasksTable)
    (p : List TokenId × TokenClass) :
    Option (List (TokenClass × TokenClassId) × TokenClassesGraph × PMasksTable) :=
  let (classes_set, graph, t) := st
  let (classes_set, class_id) := mapTCCInsert classes_set p.2
  let t := p.1.foldl (fun t id =>
    let t := { t with token_ids_by_class := addTokenId t.token_ids_by_class class_id id }
    if additionnal_classes.contains p.2 then t
    else { t with token_classes := insertA t.token_classes id class_id }) t
  match graph.add_class fuel p.2 class_id with
  | none => none
  | some g => some (classes_set, g, t)

/-- `init_classes_and_graph_optimized` (`reduce.rs` lines 22-92):
filter the vocabulary, append the additional placeholder tokens as
singleton-id entries, stable-sort by class length, run the class loop,
then intern the EOS byte's class and bind EOS to it.  Returns the EOS
class id together with the updated graph and table.  `none` models the
panics (`token_ids[0]` on an empty id list) and graph-fuel exhaustion. -/
def init_classes_and_graph_optimized (tokens : List (Token × List TokenId))
    (additionnal_tokens : List (Token × TokenId))
    (token_classes_graph : TokenClassesGraph) (transitions_table : PMasksTable)
    (byte_classes : Nat → Nat) (dead_byte_classes : List Nat)
    (eos_token_id : TokenId) (fuel : Nat) :
    Option (TokenClassId × TokenClassesGraph × PMasksTable) :=
  match initResults tokens additionnal_tokens byte_classes dead_byte_classes eos_token_id with
  | none => none
  | some results0 =>
    let additionnal_classes := additionnal_tokens.map (fun q => get_token_class q.1 byte_classes)
    let results1 := results0 ++
      additionnal_tokens.map (fun q => ([q.2], get_token_class q.1 byte_classes))
    let results := stableSortByKey (fun a => a.2.length) results1
    match results.foldl (fun acc p => acc.bind (fun st => initClassStep additionnal_classes fuel st p))
        (some ([], token_classes_graph, transitions_table)) with
    | none => none
    | some (classes_set, graph, t) =>
      let eos_u8 := eos_token_id % 256
      let eos_token_class := byte_classes eos_u8
      let (_, eos_token_class_id) := mapTCCInsert classes_set [eos_token_class]
      let t := { t with
          eos_token_class_id := eos_token_class_id
          token_classes := insertA t.token_classes eos_token_id eos_token_class_id
          token_ids_by_class := addTokenId t.token_ids_by_class eos_token_class_id eos_token_id }
      some (eos_token_class_id, graph, t)

/-- Modelled from the spec: `Vocabulary::len_alphabet`, "Real number of
different token_id" (the comment at `tokens_dfa/mod.rs` line 62); its
definition is not under `src/`.  The number of distinct token ids of
the vocabulary. -/
def Vocabulary.len_alphabet (v : Vocabulary) : Nat :=
  (v.tokens.flatMap (fun p => p.2)).eraseDups.length

/-! ### Literal extraction and muting (`src/tokens_dfa/regex.rs`,
`src/tokens_dfa/reduce.rs`).

The embedding identifies byte positions and character positions in the
pattern (`extract_literals` enumerates `chars()` while
`replace_literals` slices `as_bytes()`); the two coincide exactly on
ASCII patterns, which all concrete inputs here are. -/

/-- The opening brace character. -/
def lbraceChar : Char := Char.ofNat 123

/-- The closing brace character. -/
def rbraceChar : Char := Char.ofNat 125

/-- `add_litteral` (`regex.rs` lines 162-164):
`literals.entry(literal).or_default().push(pos)`. -/
def add_litteral (literals : List (List Char × List Nat)) (literal : List Char)
    (pos : Nat) : List (List Char × List Nat) :=
  insertA literals literal ((lookupA literals literal).getD [] ++ [pos])

/-- The mutable locals of `extract_literals` (`regex.rs` lines
166-276). -/
structure ExtractState where
  literals : List (List Char × List Nat)
  buffer : List Char
  start_pos : Option Nat
  inside_brackets : Bool
  inside_parenthesis : Bool
  inside_escape : Bool
  count_escape : Nat

/-- The flush fragment repeated through `extract_literals`:
`if !buffer.is_empty() { if let Some(start) = start_pos { add_litteral }
buffer.clear() }`. -/
def flushBuffer (st : ExtractState) : ExtractState :=
  if st.buffer.isEmpty then st
  else
    { st with
      literals := match st.start_pos with
        | some start => add_litteral st.literals st.buffer start
        | none => st.literals
      buffer := [] }

/-- One iteration of the `extract_literals` character machine
(`regex.rs` lines 177-266), one `if` per `match` arm in source order.
Rust's Unicode `char::is_alphanumeric` is taken as `Char.isAlphanum`
(they agree on ASCII).  The catch-all arm flushes without resetting
`inside_escape`, as in the source. -/
def extractStep (st : ExtractState) (ic : Nat × Char) : ExtractState :=
  let (i, c) := ic
  if c = '\\' then { st with inside_escape := true }
  else if c = '[' then
    flushBuffer { st with inside_brackets := !st.inside_escape, inside_escape := false }
  else if c = ']' then
    flushBuffer { st with inside_brackets := false, inside_escape := false }
  else if c = '(' then flushBuffer { st with inside_escape := false }
  else if c = ')' then flushBuffer { st with inside_escape := false }
  else if c = lbraceChar then
    flushBuffer { st with inside_parenthesis := !st.inside_escape, inside_escape := false }
  else if c = rbraceChar then
    flushBuffer { st with inside_escape := false, inside_parenthesis := false }
  else if c = '"' ∨ c = ',' ∨ c = '-' ∨ c = '_' ∨ c = '.' ∨ c = '*' ∨ c = '+' ∨ c = '|' then
    flushBuffer { st with inside_escape := false }
  else if st.inside_brackets then st
  else if st.inside_parenthesis then st
  else if c.isAlphanum then
    if st.count_escape > 0 then { st with count_escape := st.count_escape - 1 }
    else
      let st1 :=
        if ¬ st.inside_escape then
          { st with
            start_pos := if st.buffer.isEmpty then some i else st.start_pos
            buffer := st.buffer ++ [c] }
        else st
      let st2 :=
        if st.inside_escape then
          if c = 'x' then { st1 with count_escape := 2 }
          else if c = 'u' then { st1 with count_escape := 4 }
          else st1
        else st1
      { st2 with inside_escape := false }
  else if c = '?' ∧ ¬ st.inside_escape then
    match st.buffer.getLast? with
    | none => st
    | some last =>
      let buf := st.buffer.dropLast
      match st.start_pos with
      | some start =>
        { st with
          literals := add_litteral (add_litteral st.literals buf start)
            [last] (start + buf.length)
          start_pos := some (start + buf.length)
          buffer := [] }
      | none => { st with buffer := [] }
  else flushBuffer st

/-- `extract_literals` (`regex.rs` lines 166-276): run the character
machine over the enumerated pattern, with the trailing flush (which
does not clear the buffer). -/
def extract_literals (regex : List Char) : List (List Char × List Nat) :=
  let st := regex.enum.foldl extractStep
    { literals := [], buffer := [], start_pos := none, inside_brackets := false
      inside_parenthesis := false, inside_escape := false, count_escape := 0 }
  (flushBuffer st).literals

/-- The byte trie of `reduce.rs` lines 207-249. -/
inductive Trie where
  | node (children : List (Nat × Trie)) (token_ids : Option (List TokenId))

def Trie.children : Trie → List (Nat × Trie)
  | .node ch _ => ch

def Trie.token_ids : Trie → Option (List TokenId)
  | .node _ ids => ids

/-- `Trie::insert` (lines 220-226). -/
def Trie.insertT : Trie → List Nat → List TokenId → Trie
  | .node ch _, [], new => .node ch (some new)
  | .node ch ids, b :: rest, new =>
    let child := (lookupA ch b).getD (.node [] none)
    .node (insertA ch b (Trie.insertT child rest new)) ids

/-- `build_trie` (lines 252-258). -/
def build_trie (tokens : List (Token × List TokenId)) : Trie :=
  tokens.foldl (fun t p => t.insertT p.1 p.2) (.node [] none)

/-- The walk of `Trie::find_tokens_at_position` (lines 228-248) over
the remaining text, carrying the running offset. -/
def findTokensAux : Trie → List Nat → Nat → List (Nat × List TokenId)
  | _, [], _ => []
  | t, b :: rest, offset =>
    match lookupA t.children b with
    | none => []
    | some child =>
      (match child.token_ids with
       | some ids => [(offset + 1, ids)]
       | none => []) ++ findTokensAux child rest (offset + 1)

/-- `Trie::find_tokens_at_position` (lines 228-248). -/
def find_tokens_at_position (t : Trie) (text : List Nat) (pos : Nat) :
    List (Nat × List TokenId) :=
  findTokensAux t (text.drop pos) 0

/-- The dynamic program of `decompose_all_literals_optimized`
(`reduce.rs` lines 272-293): `dp[p] = (token count, previous position,
token length)` of a best decomposition of the first `p` bytes. -/
def dpTable (trie : Trie) (bytes : List Nat) : List (Option (Nat × Nat × Nat)) :=
  let n := bytes.length
  let dp0 := (List.replicate (n + 1) (none : Option (Nat × Nat × Nat))).set 0 (some (0, 0, 0))
  (List.range n).foldl (fun dp i =>
    match dp.getD i none with
    | none => dp
    | some (cnt, _, _) =>
      (find_tokens_at_position trie bytes i).foldl (fun dp p =>
        let next := i + p.1
        match dp.getD next none with
        | none => dp.set next (some (cnt + 1, i, p.1))
        | some (c0, _, _) =>
          if c0 > cnt + 1 then dp.set next (some (cnt + 1, i, p.1)) else dp) dp) dp0

/-- The reconstruction loop of `decompose_all_literals_optimized`
(lines 298-311), pushing tokens from the end of the literal; `none`
models the `dp[pos].unwrap()` panic and fuel exhaustion (the real
table strictly decreases `pos`, so fuel `n + 1` never runs out). -/
def reconstructAux (dp : List (Option (Nat × Nat × Nat))) (bytes : List Nat)
    (tokens : List (Token × List TokenId)) :
    Nat → Nat → List (Token × List TokenId) → Option (List (Token × List TokenId))
  | _, 0, acc => some acc
  | 0, _ + 1, _ => none
  | fuel + 1, pos, acc =>
    match dp.getD pos none with
    | none => none
    | some (_, prev_pos, token_len) =>
      let token_bytes := (bytes.drop prev_pos).take token_len
      let acc := match lookupA tokens token_bytes with
        | some ids => acc ++ [(token_bytes, ids)]
        | none => acc
      reconstructAux dp bytes tokens fuel prev_pos acc

/-- `decompose_all_literals_optimized` (`reduce.rs` lines 261-319):
for each extracted literal, the minimal-token decomposition by the
vocabulary trie; literals with no full decomposition are dropped. -/
def decompose_all_literals_optimized (literals : List (List Char × List Nat))
    (tokens : List (Token × List TokenId)) :
    Option (List (List Char × (List (Token × List TokenId) × List Nat))) :=
  let trie := build_trie tokens
  literals.foldl (fun acc p => acc.bind (fun result =>
    let literal_bytes := p.1.map Char.toNat
    let n := literal_bytes.length
    let dp := dpTable trie literal_bytes
    match dp.getD n none with
    | none => some result
    | some _ =>
      match reconstructAux dp literal_bytes tokens (n + 1) n [] with
      | none => none
      | some seq => some (insertA result p.1 (seq.reverse, p.2)))) (some [])

/-- The padding width of `update_vocabulary` (`reduce.rs` line 115):
`(token_count as f64).log10().ceil() as usize`, i.e. the number of
decimal digits of `token_count - 1` for `token_count ≥ 2`, and `0` for
`token_count ≤ 1`. -/
def padLen (n : Nat) : Nat :=
  if n ≤ 1 then 0 else (Nat.toDigits 10 (n - 1)).length

/-- `format!("\x7b:0width$\x7d", i)`: decimal digits left-padded with
zeros up to `width`. -/
def zeroPad (width : Nat) (s : List Char) : List Char :=
  if s.length < width then List.replicate (width - s.length) '0' ++ s else s

/-- `update_vocabulary` (`reduce.rs` lines 100-148): for every literal
decomposition, one placeholder token `0x1C ++ zero-padded counter` per
token id, building the replacement group `"(" ++ placeholders ++ ")"`,
the list of additional tokens, and the muted-id set.  The placeholder
bytes are valid UTF-8, so `String::from_utf8_lossy` is the identity on
them. -/
def update_vocabulary
    (decompositions : List (List Char × (List (Token × List TokenId) × List Nat)))
    (additionnal_tokens : List (Token × TokenId)) :
    List (List Char × List Char × List Nat) × List TokenId × List (Token × TokenId) :=
  let token_count := (decompositions.map
    (fun row => (row.2.1.map (fun t => t.2.length)).sum)).sum
  let padding_length := padLen token_count
  let st := decompositions.foldl (fun st row =>
    let (results, muted, add, i) := st
    let inner := row.2.1.foldl (fun st2 token =>
      token.2.foldl (fun st3 id =>
        let (frag, add, muted, i) := st3
        let i_padded := zeroPad padding_length (Nat.toDigits 10 i)
        let new_token : Token := 28 :: i_padded.map Char.toNat
        (frag ++ new_token.map Char.ofNat, add ++ [(new_token, id)],
         hsInsert muted id, i + 1)) st2)
      (([] : List Char), add, muted, i)
    let (frag, add, muted, i) := inner
    (results ++ [(row.1, '(' :: frag ++ [')'], row.2.2)], muted, add, i))
    (([] : List (List Char × List Char × List Nat)), ([] : List TokenId),
     additionnal_tokens, 1)
  (st.1, st.2.1, st.2.2.1)

/-- `replace_literals` (`regex.rs` lines 278-310): flatten the
replacements to `(position, original, replacement)`, stable-sort by
position, and rebuild the pattern left to right, skipping overlapping
replacements (`pos >= last_index`). -/
def replace_literals (regex : List Char)
    (replacements : List (List Char × List Char × List Nat)) : List Char :=
  let flat := replacements.flatMap (fun r => r.2.2.map (fun p => (p, r.1, r.2.1)))
  let flat := stableSortByKey (fun x => x.1) flat
  let st := flat.foldl (fun st r =>
    let (modified, last) := st
    let (pos, original, replacement) := r
    if last ≤ pos then
      (modified ++ (regex.drop last).take (pos - last) ++ replacement,
       pos + original.length)
    else (modified, last)) (([] : List Char), 0)
  st.1 ++ regex.drop st.2

/-- `mute_literals` (`reduce.rs` lines 189-203), additionally returning
the extended additional-token list the source accumulates through its
`&mut` parameter; `none` models the reconstruction panic. -/
def mute_literals (regex : List Char) (vocabulary : Vocabulary)
    (additionnal_tokens : List (Token × TokenId)) :
    Option (List Char × List TokenId × List (Token × TokenId)) :=
  let literals_raw := extract_literals regex
  if literals_raw.length = 0 then some (regex, [], additionnal_tokens)
  else
    match decompose_all_literals_optimized literals_raw vocabulary.tokens with
    | none => none
    | some decompositions =>
      let (literals_updated, muted_list, add) :=
        update_vocabulary decompositions additionnal_tokens
      some (replace_literals regex literals_updated, muted_list, add)

/-! ### Dead byte classes (`src/tokens_dfa/regex.rs` lines 8-160).

The external `regex_syntax` parse is an input of the embedding: `Hir`
mirrors the parsed syntax (`unicode(false)`, `utf8(false)`, under
which classes are byte classes), and the engine record below carries
the concrete parse of a pattern. -/

inductive Hir where
  | lit (bytes : List Nat)
  | classBytes (ranges : List (Nat × Nat))
  | concat (subs : List Hir)
  | alternation (subs : List Hir)
  | repetition (sub : Hir)
  | capture (sub : Hir)
  | lookEnd
  | lookEndLF
  | lookEndCRLF
  | lookStartLF
  | lookStartCRLF
  | lookWordAscii
  | lookOther
  | empty

/-- The inclusive byte range `a..=b`. -/
def rangeList (a b : Nat) : List Nat :=
  (List.range (b + 1 - a)).map (a + ·)

mutual

/-- `collect_live_bytes` (`regex.rs` lines 49-160), returning the bytes
inserted in order (the caller only tests membership). -/
def collect_live_bytes : Hir → List Nat
  | .lit bytes => bytes
  | .classBytes ranges => ranges.flatMap (fun r => rangeList r.1 r.2)
  | .concat subs => collectListBytes subs
  | .alternation subs => collectListBytes subs
  | .repetition sub => collect_live_bytes sub
  | .capture sub => collect_live_bytes sub
  | .lookEnd => []
  | .lookEndLF => [10]
  | .lookEndCRLF => [13, 10]
  | .lookStartLF => [10]
  | .lookStartCRLF => [13, 10]
  | .lookWordAscii => rangeList 97 122 ++ rangeList 65 90 ++ rangeList 48 57 ++ [95]
  | .lookOther => []
  | .empty => []

/-- `collect_live_bytes` over a `Concat`/`Alternation` list. -/
def collectListBytes : List Hir → List Nat
  | [] => []
  | h :: rest => collect_live_bytes h ++ collectListBytes rest
end

/-- `static_dead_bytes` (`regex.rs` lines 19-47), over the parsed
pattern: all bytes not live in the HIR. -/
def static_dead_bytes (hir : Hir) : List Nat :=
  let live := collect_live_bytes hir
  (List.range 256).filter (fun b => ¬ live.contains b)

/-- `compile_dead_byte_classes` (`regex.rs` lines 8-17): the set of
byte classes of the statically dead bytes.  The source parses the
pattern internally; the embedding takes the parse as an argument. -/
def compile_dead_byte_classes (hir : Hir) (byte_classes : Nat → Nat) : List Nat :=
  (static_dead_bytes hir).foldl (fun s b => hsInsert s (byte_classes b)) []

/-- The external `regex_automata`/`regex_syntax` collaborators of
`TokensDFA::new`, as a contract record: the dense DFA compiled from a
pattern, its anchored universal start state, the byte partition
(`ByteClasses::get`), the representative of a class
(`byte_classes.elements(class).next()`), and the parsed HIR of a
pattern. -/
structure RegexEngine where
  dfaOf : List Char → ByteDFA
  startOf : List Char → Option StateId
  byteClassOf : Nat → Nat
  reprOf : Nat → Nat
  hirOf : List Char → Hir

/-- `state_map.entry(s).or_insert_with(|| { counter += 1; counter - 1 })`
(`tokens_dfa/mod.rs`): returns the map, the counter, and the id. -/
def stateMapEntry (m : List (StateId × StateId)) (counter : StateId) (s : StateId) :
    List (StateId × StateId) × StateId × StateId :=
  match lookupA m s with
  | some id => (m, counter, id)
  | none => (insertA m s counter, counter + 1, counter)

/-- The per-root iterator loop of the sequential branch of
`TokensDFA::new` (`tokens_dfa/mod.rs` lines 256-287): walk each token
class (resuming from `remember_vec`) through the DFA with the
representative byte of each class byte, record the transition when the
target is intermediate or final, push a resume point when the class has
children, and advance the graph iterator.  The `remember_vec` stack is
popped at the start of every iteration, as in the source.  `none` is
fuel exhaustion. -/
def rootScanLoop (dfa : ByteDFA) (reprOfFn : Nat → Nat) (current_state : StateId)
    (current_state_id : StateId) :
    Nat → GraphIter → List (Nat × StateId) → Option (TokenClass × TokenClassId) →
    List (StateId × TokenClassId × StateId) →
    Option (List (StateId × TokenClassId × StateId))
  | _, _, _, none, acc => some acc
  | 0, _, _, some _, _ => none
  | fuel + 1, it, remember_vec, some (token_class, class_id), acc =>
    let popped :=
      match remember_vec.getLast? with
      | some (p_l, jump) => (p_l, jump, remember_vec.dropLast)
      | none => (0, current_state, remember_vec)
    let (prefix_len, temp_state, remember_vec) := popped
    let walk := (token_class.drop prefix_len).foldl (fun st b =>
      match st with
      | none => none
      | some s =>
        let s2 := dfa.next s (reprOfFn b)
        if dfa.isDead s2 || dfa.isQuit s2 then none else some s2) (some temp_state)
    match walk with
    | none =>
      let (it2, nxt) := it.reject_and_advance
      rootScanLoop dfa reprOfFn current_state current_state_id fuel it2 remember_vec nxt acc
    | some temp_state =>
      let is_intermediate := !dfa.isMatch temp_state
      let is_final := dfa.isMatch (dfa.nextEoi temp_state)
      let acc := if is_final || is_intermediate
        then acc ++ [(current_state_id, class_id, temp_state)] else acc
      let remember_vec := if it.has_child
        then remember_vec ++ [(token_class.length, temp_state)] else remember_vec
      let (it2, nxt) := it.accept_and_advance
      rootScanLoop dfa reprOfFn current_state current_state_id fuel it2 remember_vec nxt acc

/-- The `flat_map` over the graph roots (`tokens_dfa/mod.rs` lines
249-290): each root gets a fresh iterator seeded with its first node
and a fresh `remember_vec`; the collected transitions are concatenated
in root order. -/
def bfsProcessState (dfa : ByteDFA) (reprOfFn : Nat → Nat)
    (roots : List (TokenClass × GNode)) (current_state_id : StateId)
    (current_state : StateId) (scanFuel : Nat) :
    Option (List (StateId × TokenClassId × StateId)) :=
  roots.foldl (fun acc root => acc.bind (fun ts =>
    let it0 : GraphIter := { nodes := [root.2], current := none }
    let (it1, first) := it0.init
    (rootScanLoop dfa reprOfFn current_state current_state_id scanFuel it1 [] first []).map
      (fun t2 => ts ++ t2))) (some [])

/-- The outer `while let Some(current_state) = next_states.pop()` BFS
of `TokensDFA::new` (`tokens_dfa/mod.rs` lines 115-308, sequential
branch): map the popped DFA state to its dense id, mark it final when
its EOI successor matches, scan all roots, then register each collected
transition (allocating dense ids in encounter order) and enqueue unseen
targets.  `none` is fuel exhaustion. -/
def bfsLoop (dfa : ByteDFA) (reprOfFn : Nat → Nat)
    (roots : List (TokenClass × GNode)) (scanFuel : Nat) :
    Nat → List (StateId × StateId) → List StateId → List StateId → StateId →
    PMasksTable → List StateId → Option (PMasksTable × List StateId)
  | 0, _, _, next_states, _, t, finals =>
    if next_states.isEmpty then some (t, finals) else none
  | fuel + 1, state_map, seen, next_states, counter, t, finals =>
    match next_states.getLast? with
    | none => some (t, finals)
    | some current_state =>
      let next_states := next_states.dropLast
      let (state_map, counter, current_state_id) := stateMapEntry state_map counter current_state
      let finals := if dfa.isMatch (dfa.nextEoi current_state)
        then hsInsert finals current_state_id else finals
      match bfsProcessState dfa reprOfFn roots current_state_id current_state scanFuel with
      | none => none
      | some transitions =>
        let st := transitions.foldl (fun st tr =>
          let (state_map, counter, t, seen, next_states) := st
          let (depart, class_id, target) := tr
          let (state_map, counter, next_id) := stateMapEntry state_map counter target
          let t := t.add_transition depart class_id next_id
          if seen.contains target then (state_map, counter, t, seen, next_states)
          else (state_map, counter, t, hsInsert seen target, next_states ++ [target]))
          (state_map, counter, t, seen, next_states)
        let (state_map, counter, t, seen, next_states) := st
        bfsLoop dfa reprOfFn roots scanFuel fuel state_map seen next_states counter t finals

/-- The error of `TokensDFA::new` other than vocabulary problems that
the embedded fragment can raise. -/
inductive V2Error where
  | DfaHasNoStartState
  deriving DecidableEq

/-- The result record of `TokensDFA::new` over the pipeline store
(`tokens_dfa/mod.rs` lines 36-45). -/
structure PTokensDFA where
  eos_token_id : TokenId
  eos_class_id : TokenClassId
  start_state : StateId
  final_states : List StateId
  transitions_table : PMasksTable
  deriving DecidableEq

/-- `TokensDFA::new` (`tokens_dfa/mod.rs` lines 50-340), sequential
branch (taken whenever the graph has at most `GRAPH_THREADS_THRESHOLD
= 5` roots, as in every concrete run here; the parallel branch performs
the same per-root scans under locks).  The one-argument
`transitions_table.reduce(muted_list)` call site is matched against the
two-argument `MasksTable::reduce` under `src/` by threading the
final-state set it reads and extends.  `none` models panics and fuel
exhaustion. -/
def TokensDFA_new (eng : RegexEngine) (regex : List Char) (vocabulary : Vocabulary)
    (fuel : Nat) : Option (Except V2Error PTokensDFA) :=
  match mute_literals regex vocabulary [] with
  | none => none
  | some (muted_regex, muted_list, additionnal_tokens) =>
    let alphabet_len := vocabulary.len_alphabet + additionnal_tokens.length
    let dfa := eng.dfaOf muted_regex
    match eng.startOf muted_regex with
    | none => some (Except.error V2Error.DfaHasNoStartState)
    | some start_state =>
      let transitions_table := PMasksTable.new alphabet_len
      let dead_byte_classes :=
        compile_dead_byte_classes (eng.hirOf muted_regex) eng.byteClassOf
      let eos_token_id := vocabulary.eos_token_id
      match init_classes_and_graph_optimized vocabulary.tokens additionnal_tokens
          TokenClassesGraph.new transitions_table eng.byteClassOf dead_byte_classes
          eos_token_id fuel with
      | none => none
      | some (eos_class_id, token_classes_graph, transitions_table) =>
        let (state_map, counter, initial_state_id) := stateMapEntry [] 0 start_state
        let roots := token_classes_graph.roots
        match bfsLoop dfa eng.reprOf roots fuel fuel state_map [start_state]
            [start_state] counter transitions_table [] with
        | none => none
        | some (transitions_table, final_states) =>
          let transitions_table := final_states.foldl
            (fun t f => t.add_transition f eos_class_id f) transitions_table
          match transitions_table.reduce muted_list final_states with
          | none => none
          | some (transitions_table, final_states) =>
            some (Except.ok
              { eos_token_id, eos_class_id, start_state := initial_state_id,
                final_states, transitions_table })

/-- `V2Index::next_state` (`v2_index.rs` lines 45-51) over the pipeline
store: `None` (no panic) on EOS, else the table lookup with its
possible panic (outer `none`). -/
def PTokensDFA.v2_next_state (d : PTokensDFA) (state : StateId) (token_id : TokenId) :
    Option (Option StateId) :=
  if token_id = d.eos_token_id then some none
  else d.transitions_table.next_state state token_id

/-- A token-id sequence accepted by a muted (V2) index: successive
`V2Index::next_state` hops from the start state all succeed and the
last state is final.  The outer `Option` propagates the table's
panics. -/
def PTokensDFA.acceptsSeq (d : PTokensDFA) (seq : List TokenId) : Option Bool :=
  match seq.foldl (fun st id =>
    match st with
    | none => none
    | some none => some none
    | some (some s) => d.v2_next_state s id) (some (some d.start_state)) with
  | none => none
  | some none => some false
  | some (some s) => some (d.final_states.contains s)

/-- A token-id sequence accepted by a plain `Index`: successive
`Index::next_state` hops from the initial state all succeed and the
last state is final. -/
def Index.acceptsSeq (idx : Index) (seq : List TokenId) : Bool :=
  match seq.foldl (fun st id => st.bind (fun s => idx.next_state s id))
      (some idx.initialState) with
  | some s => idx.is_final_state s
  | none => false

/-! ### Concrete instances for the muting comparison: regex `"x"`,
vocabulary `"x" ↦ [5, 7]`, EOS id 9. -/

/-- The vocabulary with one entry, token `"x"` carrying the two
synonym ids 5 and 7. -/
def vocabC2 : Vocabulary where
  eos_token_id := 9
  tokens := [([120], [5, 7])]

/-- The anchored dense DFA of the regex `"x"`: 0 —`x`→ 1, dead state
2, EOI successor of 1 is the match state 3, other EOI successors 4. -/
def dfaX : ByteDFA where
  next := fun s b => if s = 0 ∧ b = 120 then 1 else 2
  isMatch := fun s => s = 3
  isDead := fun s => s = 2
  isQuit := fun _ => false
  nextEoi := fun s => if s = 1 then 3 else 4

/-- The muted pattern `"(\x1C1\x1C2)"` as characters. -/
def mutedC2 : List Char := [40, 28, 49, 28, 50, 41].map Char.ofNat

/-- The anchored dense DFA of the muted pattern `"(\x1C1\x1C2)"`:
0 —`\x1C`→ 1 —`1`→ 2 —`\x1C`→ 3 —`2`→ 4, dead state 5, EOI successor
of 4 is the match state 6, other EOI successors 7. -/
def dfaMuted : ByteDFA where
  next := fun s b =>
    if s = 0 ∧ b = 28 then 1
    else if s = 1 ∧ b = 49 then 2
    else if s = 2 ∧ b = 28 then 3
    else if s = 3 ∧ b = 50 then 4
    else 5
  isMatch := fun s => s = 6
  isDead := fun s => s = 5
  isQuit := fun _ => false
  nextEoi := fun s => if s = 4 then 6 else 7

/-- The external engine for the muting comparison: the byte partition
is the identity (each byte its own class, hence its own
representative), and the DFA and parse of the muted pattern are the
hand-compiled `dfaMuted` and its HIR, a capture group around the
literal `\x1C1\x1C2`. -/
def engC2 : RegexEngine where
  dfaOf := fun s => if s = mutedC2 then dfaMuted else dfaX
  startOf := fun _ => some 0
  byteClassOf := id
  reprOf := id
  hirOf := fun _ => Hir.capture (Hir.lit [28, 49, 28, 50])

/-! ## General lemmas about the association-list embedding -/

theorem lookupA_insertA {α β : Type} [DecidableEq α] (m : List (α × β)) (a a' : α) (b : β) :
    lookupA (insertA m a b) a' = if a' = a then some b else lookupA m a' := by
  induction m with
  | nil =>
    by_cases h : a' = a
    · subst h; simp [insertA, lookupA]
    · have h2 : ¬(a = a') := fun hh => h hh.symm
      simp [insertA, lookupA, h, h2]
  | cons kv rest ih =>
    obtain ⟨k, v⟩ := kv
    by_cases hka : k = a
    · subst hka
      by_cases h : a' = k
      · subst h; simp [insertA, lookupA]
      · have h2 : ¬(k = a') := fun hh => h hh.symm
        simp [insertA, lookupA, h, h2]
    · by_cases hk : k = a'
      · have h2 : ¬(a' = a) := fun hh => hka (hk.trans hh)
        simp [insertA, lookupA, hka, hk, h2]
      · simp [insertA, lookupA, hka, hk, ih]

theorem mem_keysA_iff_lookupA {α β : Type} [DecidableEq α] (m : List (α × β)) (a : α) :
    a ∈ keysA m ↔ (lookupA m a).isSome := by
  induction m with
  | nil => simp [keysA, lookupA]
  | cons kv rest ih =>
    obtain ⟨k, v⟩ := kv
    by_cases hk : k = a
    · subst hk; simp [keysA, lookupA]
    · have hak : ¬(a = k) := fun h => hk h.symm
      constructor
      · intro hmem
        rcases (by simpa [keysA] using hmem : a = k ∨ a ∈ keysA rest) with h | h
        · exact absurd h hak
        · simpa [lookupA, hk] using (ih.mp h)
      · intro hsome
        have : (lookupA rest a).isSome := by simpa [lookupA, hk] using hsome
        have := ih.mpr this
        simp [keysA] at this ⊢
        exact Or.inr this

theorem mem_keysA_insertA {α β : Type} [DecidableEq α] (m : List (α × β)) (a a' : α) (b : β) :
    a' ∈ keysA (insertA m a b) ↔ a' = a ∨ a' ∈ keysA m := by
  rw [mem_keysA_iff_lookupA, mem_keysA_iff_lookupA, lookupA_insertA]
  by_cases h : a' = a <;> simp [h]

theorem mem_keysOf_iff_lookup2 (t : List (StateId × List (TokenId × StateId)))
    (s : StateId) (tid : TokenId) :
    tid ∈ keysOf t s ↔ (lookup2 t s tid).isSome := by
  unfold keysOf lookup2
  cases h : lookupA t s with
  | none => simp [keysA]
  | some inner => simp [mem_keysA_iff_lookupA]

theorem lookup2_insertTrans (t : List (StateId × List (TokenId × StateId)))
    (s s' : StateId) (tid tid' : TokenId) (ns : StateId) :
    lookup2 (insertTrans t s tid ns) s' tid' =
      if s' = s ∧ tid' = tid then some ns else lookup2 t s' tid' := by
  unfold lookup2 insertTrans
  rw [lookupA_insertA]
  by_cases hs : s' = s
  · subst hs
    rw [if_pos rfl, Option.some_bind, lookupA_insertA]
    by_cases ht : tid' = tid
    · simp [ht]
    · rw [if_neg ht, if_neg (by simp [ht])]
      cases h : lookupA t s' with
      | none => simp [lookupA]
      | some inner => simp
  · rw [if_neg hs, if_neg (by simp [hs])]

theorem mem_keysOf_insertTrans (t : List (StateId × List (TokenId × StateId)))
    (s s' : StateId) (tid tid' : TokenId) (ns : StateId) :
    tid' ∈ keysOf (insertTrans t s tid ns) s' ↔
      (s' = s ∧ tid' = tid) ∨ tid' ∈ keysOf t s' := by
  rw [mem_keysOf_iff_lookup2, mem_keysOf_iff_lookup2, lookup2_insertTrans]
  by_cases h : s' = s ∧ tid' = tid <;> simp [h]

theorem entry_insertTrans (t : List (StateId × List (TokenId × StateId)))
    (s s' : StateId) (tid : TokenId) (ns : StateId) :
    (lookupA (insertTrans t s tid ns) s').isSome ↔ s' = s ∨ (lookupA t s').isSome := by
  unfold insertTrans
  rw [lookupA_insertA]
  by_cases h : s' = s <;> simp [h]

theorem TransNoEos_insertTrans {eos : TokenId} {t : List (StateId × List (TokenId × StateId))}
    {s : StateId} {tid : TokenId} {ns : StateId}
    (h : TransNoEos eos t) (htid : tid ≠ eos) :
    TransNoEos eos (insertTrans t s tid ns) := by
  intro s' tid' hmem
  rcases (mem_keysOf_insertTrans t s s' tid tid' ns).mp hmem with ⟨_, rfl⟩ | hmem'
  · exact htid
  · exact h s' tid' hmem'

theorem TransNoEos_foldIds {eos : TokenId} (cur ns : StateId) :
    ∀ (ids : List TokenId) (t : List (StateId × List (TokenId × StateId))),
      eos ∉ ids → TransNoEos eos t →
      TransNoEos eos (ids.foldl (fun t id => insertTrans t cur id ns) t) := by
  intro ids
  induction ids with
  | nil => intro t _ h; exact h
  | cons id rest ih =>
    intro t hnmem h
    have hid : id ≠ eos := fun hh => hnmem (by simp [hh])
    have hrest : eos ∉ rest := fun hh => hnmem (by simp [hh])
    exact ih _ hrest (TransNoEos_insertTrans h (fun hh => hid hh))

theorem processToken_transitions (dfa : ByteDFA) (eos : TokenId) (cur : StateId)
    (st : LoopState) (token : Token) (ids : List TokenId) :
    (processToken dfa eos cur st (token, ids)).transitions =
      if eos ∈ ids then st.transitions
      else
        match walkToken dfa cur token with
        | none => st.transitions
        | some ns =>
          if (!dfa.isMatch ns || dfa.isMatch (dfa.nextEoi ns)) = true then
            ids.foldl (fun t id => insertTrans t cur id ns) st.transitions
          else st.transitions := by
  unfold processToken
  by_cases hmem : eos ∈ ids
  · simp [hmem]
  · simp only [hmem, if_false]
    cases hwalk : walkToken dfa cur token with
    | none => simp
    | some ns => dsimp only; split_ifs <;> rfl

theorem processToken_has_valid (dfa : ByteDFA) (eos : TokenId) (cur : StateId)
    (st : LoopState) (token : Token) (ids : List TokenId) :
    (processToken dfa eos cur st (token, ids)).has_valid =
      if eos ∈ ids then st.has_valid
      else
        match walkToken dfa cur token with
        | none => st.has_valid
        | some ns =>
          if (!dfa.isMatch ns || dfa.isMatch (dfa.nextEoi ns)) = true then true
          else st.has_valid := by
  unfold processToken
  by_cases hmem : eos ∈ ids
  · simp [hmem]
  · simp only [hmem, if_false]
    cases hwalk : walkToken dfa cur token with
    | none => simp
    | some ns => dsimp only; split_ifs <;> rfl

theorem TransNoEos_processToken {dfa : ByteDFA} {eos : TokenId} {cur : StateId}
    {st : LoopState} (entry : Token × List TokenId)
    (h : TransNoEos eos st.transitions) :
    TransNoEos eos (processToken dfa eos cur st entry).transitions := by
  obtain ⟨token, ids⟩ := entry
  rw [processToken_transitions]
  by_cases hmem : eos ∈ ids
  · simpa [hmem]
  · simp only [hmem, if_false]
    cases hwalk : walkToken dfa cur token with
    | none => exact h
    | some ns =>
      dsimp only
      by_cases hc : (!dfa.isMatch ns || dfa.isMatch (dfa.nextEoi ns)) = true
      · rw [if_pos hc]; exact TransNoEos_foldIds cur ns ids st.transitions hmem h
      · rw [if_neg hc]; exact h

theorem TransNoEos_foldTokens {dfa : ByteDFA} {eos : TokenId} {cur : StateId} :
    ∀ (tokens : List (Token × List TokenId)) (st : LoopState),
      TransNoEos eos st.transitions →
      TransNoEos eos (tokens.foldl (processToken dfa eos cur) st).transitions := by
  intro tokens
  induction tokens with
  | nil => intro st h; exact h
  | cons e rest ih =>
    intro st h
    exact ih _ (TransNoEos_processToken e h)

theorem TransNoEos_indexNewLoop (regex : String) (dfa : ByteDFA) (eos : TokenId)
    (tokens : List (Token × List TokenId)) :
    ∀ (fuel : Nat) (queue seen : List StateId)
      (tr : List (StateId × List (TokenId × StateId))) (finals : List StateId)
      (tr' : List (StateId × List (TokenId × StateId))) (finals' : List StateId),
      indexNewLoop regex dfa eos tokens fuel queue seen tr finals =
        some (Except.ok (tr', finals')) →
      TransNoEos eos tr → TransNoEos eos tr' := by
  intro fuel
  induction fuel with
  | zero =>
    intro queue seen tr finals tr' finals' hloop h
    cases queue with
    | nil =>
      simp only [indexNewLoop, Option.some.injEq, Except.ok.injEq, Prod.mk.injEq] at hloop
      obtain ⟨h1, _⟩ := hloop
      exact h1 ▸ h
    | cons cur rest => simp [indexNewLoop] at hloop
  | succ fuel ih =>
    intro queue seen tr finals tr' finals' hloop h
    cases queue with
    | nil =>
      simp only [indexNewLoop, Option.some.injEq, Except.ok.injEq, Prod.mk.injEq] at hloop
      obtain ⟨h1, _⟩ := hloop
      exact h1 ▸ h
    | cons cur rest =>
      rw [indexNewLoop] at hloop
      split at hloop
      · exact absurd hloop (by simp)
      · exact ih _ _ _ _ _ _ hloop (TransNoEos_foldTokens tokens _ h)

theorem lookup2_eosFold (eos : TokenId) :
    ∀ (fi : List StateId) (t : List (StateId × List (TokenId × StateId)))
      (s : StateId) (tid : TokenId),
      lookup2 (fi.foldl (fun t f => insertTrans t f eos f) t) s tid =
        if tid = eos ∧ s ∈ fi then some s else lookup2 t s tid := by
  intro fi
  induction fi with
  | nil => intro t s tid; simp
  | cons f fs ih =>
    intro t s tid
    simp only [List.foldl_cons]
    rw [ih, lookup2_insertTrans]
    by_cases h1 : tid = eos
    · by_cases h2 : s ∈ fs
      · simp [h1, h2]
      · by_cases h3 : s = f
        · simp [h1, h2, h3]
        · simp [h1, h2, h3]
    · simp [h1]

theorem mem_keysOf_eosFold (eos : TokenId) (fi : List StateId)
    (t : List (StateId × List (TokenId × StateId))) (s : StateId) (tid : TokenId) :
    tid ∈ keysOf (fi.foldl (fun t f => insertTrans t f eos f) t) s ↔
      (tid = eos ∧ s ∈ fi) ∨ tid ∈ keysOf t s := by
  rw [mem_keysOf_iff_lookup2, mem_keysOf_iff_lookup2, lookup2_eosFold]
  by_cases h : tid = eos ∧ s ∈ fi <;> simp [h]

theorem entry_eosFold (eos : TokenId) :
    ∀ (fi : List StateId) (t : List (StateId × List (TokenId × StateId))) (s : StateId),
      (lookupA (fi.foldl (fun t f => insertTrans t f eos f) t) s).isSome ↔
        s ∈ fi ∨ (lookupA t s).isSome := by
  intro fi
  induction fi with
  | nil => intro t s; simp
  | cons f fs ih =>
    intro t s
    simp only [List.foldl_cons]
    rw [ih, entry_insertTrans]
    by_cases h1 : s ∈ fs
    · simp [h1]
    · by_cases h2 : s = f <;> simp [h1, h2]

theorem Index.new_ok_shape {regex : String} {dfa : ByteDFA} {start : StateId}
    {vocabulary : Vocabulary} {fuel : Nat} {idx : Index}
    (h : Index.new regex dfa start vocabulary fuel = some (Except.ok idx)) :
    ∃ tr finals,
      indexNewLoop regex dfa vocabulary.eos_token_id vocabulary.tokens fuel
          [start] [start] [] [] = some (Except.ok (tr, finals)) ∧
      idx = Index.mk start finals
              (finals.foldl (fun t f => insertTrans t f vocabulary.eos_token_id f) tr)
              vocabulary.eos_token_id vocabulary.len := by
  simp only [Index.new] at h
  cases hres : indexNewLoop regex dfa vocabulary.eos_token_id vocabulary.tokens fuel
      [start] [start] [] [] with
  | none => rw [hres] at h; exact absurd h (by simp)
  | some r =>
    cases r with
    | error e => rw [hres] at h; exact absurd h (by simp)
    | ok p =>
      obtain ⟨tr, finals⟩ := p
      rw [hres] at h
      simp only [Option.some.injEq, Except.ok.injEq] at h
      exact ⟨tr, finals, rfl, h.symm⟩

theorem TransNoEos_nil (eos : TokenId) : TransNoEos eos [] := by
  intro s tid h
  simp [keysOf, lookupA, keysA] at h

theorem Index.next_state_mk_eosFold (start : StateId) (finals : List StateId)
    (tr : List (StateId × List (TokenId × StateId))) (eos : TokenId) (vs : Nat)
    (s : StateId) (tid : TokenId) (htid : tid ≠ eos) :
    (Index.mk start finals (finals.foldl (fun t f => insertTrans t f eos f) tr) eos vs).next_state
        s tid = lookup2 tr s tid := by
  unfold Index.next_state
  dsimp only
  rw [if_neg htid]
  show lookup2 (finals.foldl (fun t f => insertTrans t f eos f) tr) s tid = _
  rw [lookup2_eosFold]
  simp [htid]

theorem Index.is_final_state_mk (start : StateId) (finals : List StateId)
    (tr : List (StateId × List (TokenId × StateId))) (eos : TokenId) (vs : Nat) (s : StateId) :
    (Index.mk start finals tr eos vs).is_final_state s = true ↔ s ∈ finals := by
  unfold Index.is_final_state
  dsimp only
  simp

/-- C1: For every Index built by `Index::new(regex, vocabulary)` and
every state `s` that appears in the index (`allowed_tokens(s)` returns
a list `l`), `l` contains a token id exactly when `next_state` is
defined on it, or it is the EOS id and `s` is a final state; the EOS id
is in the allowed set of a final state even though `next_state(s, EOS)`
is always `None`. -/
theorem allowed_tokens_exactly_next_state_sources
    (regex : String) (dfa : ByteDFA) (start : StateId) (vocabulary : Vocabulary)
    (fuel : Nat) (idx : Index)
    (hbuild : Index.new regex dfa start vocabulary fuel = some (Except.ok idx))
    (s : StateId) (l : List TokenId) (hallowed : idx.allowed_tokens s = some l)
    (tid : TokenId) :
    tid ∈ l ↔ ((idx.next_state s tid).isSome ∨
      (tid = idx.eos_token_id ∧ idx.is_final_state s = true)) := by
  obtain ⟨tr, finals, hloop, hidx⟩ := Index.new_ok_shape hbuild
  subst hidx
  have hNoEos : TransNoEos vocabulary.eos_token_id tr :=
    TransNoEos_indexNewLoop regex dfa vocabulary.eos_token_id vocabulary.tokens fuel
      [start] [start] [] [] tr finals hloop (TransNoEos_nil _)
  obtain ⟨inner, hinner, hlkeys⟩ :
      ∃ inner,
        lookupA (finals.foldl (fun t f => insertTrans t f vocabulary.eos_token_id f) tr) s =
          some inner ∧ l = keysA inner := by
    simp only [Index.allowed_tokens] at hallowed
    cases hh : lookupA (finals.foldl (fun t f => insertTrans t f vocabulary.eos_token_id f) tr) s with
    | none => rw [hh] at hallowed; simp at hallowed
    | some inner =>
      rw [hh] at hallowed
      simp at hallowed
      exact ⟨inner, rfl, hallowed.symm⟩
  subst hlkeys
  have hmem : tid ∈ keysA inner ↔
      tid ∈ keysOf (finals.foldl (fun t f => insertTrans t f vocabulary.eos_token_id f) tr) s := by
    unfold keysOf
    rw [hinner]
    exact Iff.rfl
  rw [hmem, mem_keysOf_eosFold]
  by_cases htid : tid = vocabulary.eos_token_id
  · subst htid
    have hno : vocabulary.eos_token_id ∉ keysOf tr s := fun hk => hNoEos s _ hk rfl
    have hnone : (Index.mk start finals
        (finals.foldl (fun t f => insertTrans t f vocabulary.eos_token_id f) tr)
        vocabulary.eos_token_id vocabulary.len).next_state s vocabulary.eos_token_id = none := by
      simp [Index.next_state]
    rw [hnone, Index.is_final_state_mk]
    simp [hno]
  · rw [Index.next_state_mk_eosFold start finals tr vocabulary.eos_token_id vocabulary.len s tid htid]
    have heos : (Index.mk start finals
        (finals.foldl (fun t f => insertTrans t f vocabulary.eos_token_id f) tr)
        vocabulary.eos_token_id vocabulary.len).eos_token_id = vocabulary.eos_token_id := rfl
    rw [heos]
    simp only [htid, false_and, or_false, false_or]
    rw [mem_keysOf_iff_lookup2]

theorem processToken_has_valid_stuck {dfa : ByteDFA} {eos : TokenId} {cur : StateId}
    (st : LoopState) (e : Token × List TokenId) (hs : stuckEntry dfa eos cur e = true) :
    (processToken dfa eos cur st e).has_valid = st.has_valid := by
  obtain ⟨token, ids⟩ := e
  rw [processToken_has_valid]
  unfold stuckEntry at hs
  by_cases hmem : eos ∈ ids
  · simp [hmem]
  · simp only [decide_eq_false hmem, Bool.false_or] at hs
    simp only [hmem, if_false]
    cases hwalk : walkToken dfa cur token with
    | none => rfl
    | some ns =>
      rw [hwalk] at hs
      dsimp only at hs ⊢
      obtain ⟨hm, hne⟩ : dfa.isMatch ns = true ∧ dfa.isMatch (dfa.nextEoi ns) = false := by
        simpa using hs
      simp [hm, hne]

theorem foldTokens_has_valid_stuck {dfa : ByteDFA} {eos : TokenId} {cur : StateId} :
    ∀ (tokens : List (Token × List TokenId)) (st : LoopState),
      (∀ e ∈ tokens, stuckEntry dfa eos cur e = true) →
      (tokens.foldl (processToken dfa eos cur) st).has_valid = st.has_valid := by
  intro tokens
  induction tokens with
  | nil => intro st _; rfl
  | cons e rest ih =>
    intro st hall
    rw [List.foldl_cons, ih _ (fun x hx => hall x (by simp [hx])),
      processToken_has_valid_stuck st e (hall e (by simp))]

/-- C3: If during the BFS a non-match DFA state (which also does not
accept end-of-input) has no vocabulary token producing a valid
transition, `Index::new` returns the `IncompatibleVocabulary` error
carrying the regex, the offending state id, and the byte characters the
DFA expected (ASCII bytes as literals, others as `\xNN`, per
`validCharacters`); in particular for regex `"0 1"` with the vocabulary
`{"0", "0 ", "1"}` it fails with `missing_tokens` containing `" "`. -/
theorem vocabulary_incompatible_error_and_scenario :
    (∀ (regex : String) (dfa : ByteDFA) (eos : TokenId)
       (tokens : List (Token × List TokenId)) (fuel : Nat) (cur : StateId)
       (rest seen : List StateId) (tr : List (StateId × List (TokenId × StateId)))
       (finals : List StateId),
       (∀ e ∈ tokens, stuckEntry dfa eos cur e = true) →
       dfa.isMatch (dfa.nextEoi cur) = false →
       dfa.isMatch cur = false →
       indexNewLoop regex dfa eos tokens (fuel + 1) (cur :: rest) seen tr finals =
         some (Except.error (IndexError.IncompatibleVocabulary regex cur
           (validCharacters dfa cur)))) ∧
    (Index.new "0 1" dfa01 0 vocab01 10 =
      some (Except.error (IndexError.IncompatibleVocabulary "0 1" 1 [" "])) ∧
     [" "].contains " " = true) := by
  constructor
  · intro regex dfa eos tokens fuel cur rest seen tr finals hstuck hnoeoi hnomatch
    have hfold2 : (tokens.foldl (processToken dfa eos cur)
        { transitions := tr, seen := seen, queue := rest,
          has_valid := false }).has_valid = false := by
      rw [foldTokens_has_valid_stuck tokens _ hstuck]
    rw [indexNewLoop]
    simp only [hnoeoi, hnomatch]
    simp [hfold2]
  · exact ⟨by rfl, by rfl⟩

/-- C4: EOS is a terminator, not a transition: for every state of a
built Index, `next_state(s, EOS)` is `None`; every final state's
allowed-token list contains the EOS id; and a Guide's `advance` on the
EOS token id leaves the guide, in particular its cursor state,
unchanged. -/
theorem eos_terminator_not_transition
    (regex : String) (dfa : ByteDFA) (start : StateId) (vocabulary : Vocabulary)
    (fuel : Nat) (idx : Index)
    (hbuild : Index.new regex dfa start vocabulary fuel = some (Except.ok idx)) :
    (∀ s, idx.next_state s idx.eos_token_id = none) ∧
    (∀ f, idx.is_final_state f = true →
      ∃ l, idx.allowed_tokens f = some l ∧ idx.eos_token_id ∈ l) ∧
    (∀ g : PyGuide, g.index = idx → (g.advance idx.eos_token_id).fst = g) := by
  have h1 : ∀ s, idx.next_state s idx.eos_token_id = none := by
    intro s
    simp [Index.next_state]
  refine ⟨h1, ?_, ?_⟩
  · intro f hf
    obtain ⟨tr, finals, hloop, hidx⟩ := Index.new_ok_shape hbuild
    subst hidx
    have hmemf : f ∈ finals := (Index.is_final_state_mk _ _ _ _ _ _).mp hf
    have hentry : (lookupA
        (finals.foldl (fun t f => insertTrans t f vocabulary.eos_token_id f) tr) f).isSome := by
      rw [entry_eosFold]
      exact Or.inl hmemf
    obtain ⟨inner, hinner⟩ := Option.isSome_iff_exists.mp hentry
    refine ⟨keysA inner, ?_, ?_⟩
    · simp only [Index.allowed_tokens]
      rw [hinner]
      rfl
    · have hk : vocabulary.eos_token_id ∈
          keysOf (finals.foldl (fun t f => insertTrans t f vocabulary.eos_token_id f) tr) f :=
        (mem_keysOf_eosFold _ _ _ _ _).mpr (Or.inl ⟨rfl, hmemf⟩)
      unfold keysOf at hk
      rw [hinner] at hk
      exact hk
  · intro g hg
    have hnone : g.index.next_state g.state idx.eos_token_id = none := by
      rw [hg]
      exact h1 g.state
    unfold PyGuide.advance
    rw [hnone]

theorem allowed_tokens_exactly_next_state_sources_witness :
    Index.new "0|[1-9][0-9]*" dfaNum 0 vocabNum 10 = some (Except.ok idxNum) ∧
    idxNum.allowed_tokens 0 = some [2, 3] ∧
    (2 ∈ [2, 3] ↔ ((idxNum.next_state 0 2).isSome ∨
      (2 = idxNum.eos_token_id ∧ idxNum.is_final_state 0 = true))) :=
  ⟨by rfl, by rfl,
    allowed_tokens_exactly_next_state_sources "0|[1-9][0-9]*" dfaNum 0 vocabNum 10 idxNum
      (by rfl) 0 [2, 3] (by rfl) 2⟩

theorem vocabulary_incompatible_error_witness :
    (∀ e ∈ vocab01.tokens, stuckEntry dfa01 3 1 e = true) ∧
    indexNewLoop "0 1" dfa01 3 vocab01.tokens 1 [1] [0, 1, 2, 3] [] [] =
      some (Except.error (IndexError.IncompatibleVocabulary "0 1" 1 (validCharacters dfa01 1))) ∧
    validCharacters dfa01 1 = [" "] :=
  ⟨by decide,
    vocabulary_incompatible_error_and_scenario.1 "0 1" dfa01 3 vocab01.tokens 0 1 [] [0, 1, 2, 3]
      [] [] (by decide) (by decide) (by decide),
    by decide⟩

theorem eos_terminator_not_transition_witness :
    idxNum.next_state 1 idxNum.eos_token_id = none ∧
    (∃ l, idxNum.allowed_tokens 1 = some l ∧ idxNum.eos_token_id ∈ l) ∧
    ((PyGuide.mk 1 idxNum).advance idxNum.eos_token_id).fst = PyGuide.mk 1 idxNum :=
  have h := eos_terminator_not_transition "0|[1-9][0-9]*" dfaNum 0 vocabNum 10 idxNum (by rfl)
  ⟨h.1 1, h.2.1 1 (by rfl), h.2.2 (PyGuide.mk 1 idxNum) rfl⟩

theorem exceptOkBind {ε α β : Type} (a : α) (f : α → Except ε β) :
    (Except.ok a >>= f : Except ε β) = f a := rfl

theorem keysA_append {α β : Type} (m m' : List (α × β)) :
    keysA (m ++ m') = keysA m ++ keysA m' := by
  simp [keysA]

theorem insertA_append_of_not_mem {α β : Type} [DecidableEq α] :
    ∀ (m : List (α × β)) (a : α) (b : β), a ∉ keysA m → insertA m a b = m ++ [(a, b)] := by
  intro m
  induction m with
  | nil => intro a b _; rfl
  | cons kv rest ih =>
    intro a b hnm
    obtain ⟨k, v⟩ := kv
    have hk : ¬(k = a) := by
      intro hh
      exact hnm (by simp [keysA, hh])
    simp only [insertA, hk, if_false, List.cons_append, List.cons.injEq, true_and]
    exact ih a b (fun hh => hnm (by simp [keysA] at hh ⊢; exact Or.inr hh))

theorem hsInsert_append_of_not_mem {α : Type} [DecidableEq α] (s : List α) (a : α)
    (h : a ∉ s) : hsInsert s a = s ++ [a] := by
  simp [hsInsert, h]

theorem readU32_u32le (n : Nat) (h : n < 4294967296) (rest : List Nat) :
    readU32 (u32le n ++ rest) = Except.ok (n, rest) := by
  simp only [u32le, List.cons_append, List.nil_append, readU32, Except.ok.injEq, Prod.mk.injEq,
    and_true]
  omega

theorem readFinals_spec :
    ∀ (fs acc : List StateId) (rest : List Nat),
      (∀ f ∈ fs, f < 4294967296) → fs.Nodup → (∀ f ∈ fs, f ∉ acc) →
      readFinals fs.length ((fs.map u32le).flatten ++ rest) acc = Except.ok (acc ++ fs, rest) := by
  intro fs
  induction fs with
  | nil => intro acc rest _ _ _; simp [readFinals]
  | cons f fs' ih =>
    intro acc rest hlt hnd hdisj
    have hf : f < 4294967296 := hlt f (by simp)
    simp only [List.length_cons, List.map_cons, List.flatten_cons, List.append_assoc]
    rw [readFinals, readU32_u32le f hf, exceptOkBind]
    dsimp only
    rw [hsInsert_append_of_not_mem acc f (hdisj f (by simp))]
    rw [ih (acc ++ [f]) rest (fun x hx => hlt x (by simp [hx])) (List.Nodup.of_cons hnd) ?hd]
    · simp
    case hd =>
      intro x hx
      simp only [List.mem_append, List.mem_singleton]
      rintro (hxa | hxf)
      · exact hdisj x (by simp [hx]) hxa
      · subst hxf
        exact (List.nodup_cons.mp hnd).1 hx

theorem readInner_spec :
    ∀ (l : List (TokenId × StateId)) (acc : List (TokenId × StateId)) (rest : List Nat),
      (∀ q ∈ l, q.1 < 4294967296 ∧ q.2 < 4294967296) → (keysA l).Nodup →
      (∀ q ∈ l, q.1 ∉ keysA acc) →
      readInner l.length ((l.map (fun q => u32le q.1 ++ u32le q.2)).flatten ++ rest) acc =
        Except.ok (acc ++ l, rest) := by
  intro l
  induction l with
  | nil => intro acc rest _ _ _; simp [readInner]
  | cons q l' ih =>
    intro acc rest hlt hnd hdisj
    obtain ⟨tid, ns⟩ := q
    have hq := hlt (tid, ns) (by simp)
    simp only [List.length_cons, List.map_cons, List.flatten_cons, List.append_assoc]
    rw [readInner, readU32_u32le tid hq.1, exceptOkBind]
    dsimp only
    rw [readU32_u32le ns hq.2, exceptOkBind]
    dsimp only
    rw [insertA_append_of_not_mem acc tid ns (hdisj (tid, ns) (by simp))]
    have hnd2 : (tid :: keysA l').Nodup := hnd
    have hnd' : (keysA l').Nodup := (List.nodup_cons.mp hnd2).2
    have hhead : tid ∉ keysA l' := (List.nodup_cons.mp hnd2).1
    rw [ih (acc ++ [(tid, ns)]) rest (fun x hx => hlt x (by simp [hx])) hnd' ?hd]
    · simp
    case hd =>
      intro x hx
      rw [keysA_append]
      simp only [List.mem_append]
      rintro (hxa | hxf)
      · exact hdisj x (by simp [hx]) hxa
      · have hx1 : x.1 = tid := by simpa [keysA] using hxf
        have hmem : x.1 ∈ keysA l' := by
          simp only [keysA, List.mem_map]
          exact ⟨x, hx, rfl⟩
        rw [hx1] at hmem
        exact hhead hmem

theorem readStates_spec :
    ∀ (ts acc : List (StateId × List (TokenId × StateId))) (rest : List Nat),
      (∀ p ∈ ts, p.1 < 4294967296 ∧ p.2.length < 4294967296 ∧ (keysA p.2).Nodup ∧
        ∀ q ∈ p.2, q.1 < 4294967296 ∧ q.2 < 4294967296) →
      (keysA ts).Nodup → (∀ p ∈ ts, p.1 ∉ keysA acc) →
      readStates ts.length ((ts.map encTransEntry).flatten ++ rest) acc =
        Except.ok (acc ++ ts, rest) := by
  intro ts
  induction ts with
  | nil => intro acc rest _ _ _; simp [readStates]
  | cons p ts' ih =>
    intro acc rest hlt hnd hdisj
    obtain ⟨sid, inner⟩ := p
    obtain ⟨h1, h2, h3, h4⟩ := hlt (sid, inner) (by simp)
    simp only [List.length_cons, List.map_cons, List.flatten_cons, encTransEntry,
      List.append_assoc]
    rw [readStates, readU32_u32le sid h1, exceptOkBind]
    dsimp only
    rw [readU32_u32le inner.length h2, exceptOkBind]
    dsimp only
    rw [readInner_spec inner [] _ h4 h3 (by intro q _ hq; simp [keysA] at hq), exceptOkBind]
    dsimp only
    rw [List.nil_append, insertA_append_of_not_mem acc sid inner (hdisj (sid, inner) (by simp))]
    have hnd2 : (sid :: keysA ts').Nodup := hnd
    have hnd' : (keysA ts').Nodup := (List.nodup_cons.mp hnd2).2
    have hhead : sid ∉ keysA ts' := (List.nodup_cons.mp hnd2).1
    rw [ih (acc ++ [(sid, inner)]) rest (fun x hx => hlt x (by simp [hx])) hnd' ?hd]
    · simp
    case hd =>
      intro x hx
      rw [keysA_append]
      simp only [List.mem_append]
      rintro (hxa | hxf)
      · exact hdisj x (by simp [hx]) hxa
      · have hx1 : x.1 = sid := by simpa [keysA] using hxf
        have hmem : x.1 ∈ keysA ts' := by
          simp only [keysA, List.mem_map]
          exact ⟨x, hx, rfl⟩
        rw [hx1] at hmem
        exact hhead hmem

/-- C5: serialization round-trip on the version-1 binary buffer: for
any well-formed Index (all fields within `u32` range, no duplicate keys
— true of every index built by `Index::new`, whose ids are `u32`s and
whose containers are maps and sets), decoding the encoding yields an
equal index: same initial state, final states, EOS id, vocab size, and
transition map.  The gzip wrapper and the file IO around these bytes
are external (`flate2`, `std::fs`) and assumed to round-trip. -/
theorem save_load_round_trip (idx : Index)
    (hvs : idx.vocab_size < 4294967296)
    (heos : idx.eos_token_id < 4294967296)
    (hinit : idx.initial_state < 4294967296)
    (hflen : idx.final_states.length < 4294967296)
    (hfin : ∀ f ∈ idx.final_states, f < 4294967296)
    (hfnd : idx.final_states.Nodup)
    (htlen : idx.transitions.length < 4294967296)
    (htr : ∀ p ∈ idx.transitions, p.1 < 4294967296 ∧ p.2.length < 4294967296 ∧
      (keysA p.2).Nodup ∧ ∀ q ∈ p.2, q.1 < 4294967296 ∧ q.2 < 4294967296)
    (hond : (keysA idx.transitions).Nodup) :
    Index.loadBytes (Index.saveBytes idx) = Except.ok idx := by
  unfold Index.saveBytes Index.loadBytes
  simp only [List.append_assoc]
  rw [readU32_u32le _ hvs, exceptOkBind]
  dsimp only
  rw [readU32_u32le _ heos, exceptOkBind]
  dsimp only
  rw [readU32_u32le _ hinit, exceptOkBind]
  dsimp only
  rw [readU32_u32le _ hflen, exceptOkBind]
  dsimp only
  rw [readFinals_spec idx.final_states [] _ hfin hfnd (by intro f _ hf; simp at hf),
    exceptOkBind]
  dsimp only
  rw [List.nil_append, List.cons_append]
  dsimp only
  rw [if_neg (by simp : ¬((1 : Nat) ≠ 1))]
  rw [List.nil_append]
  rw [readU32_u32le _ htlen, exceptOkBind]
  dsimp only
  rw [show (List.map encTransEntry idx.transitions).flatten =
      (List.map encTransEntry idx.transitions).flatten ++ [] from (List.append_nil _).symm]
  rw [readStates_spec idx.transitions [] [] htr hond (by intro p _ hp; simp [keysA] at hp),
    exceptOkBind]
  rfl

theorem save_load_round_trip_witness :
    Index.loadBytes (Index.saveBytes idxNum) = Except.ok idxNum :=
  save_load_round_trip idxNum (by decide) (by decide) (by decide) (by decide) (by decide)
    (by decide) (by decide) (by decide) (by decide)

theorem vocabulary_insert_eos_recorded_counterexample :
    ((Vocabulary.new 3).insert [97] 3).tokens = [([97], [3])] := by decide

/-- C7 (amended): `Vocabulary::insert` as found in
`src/vocabulary/mod.rs` appends the id to the entry for those bytes
unconditionally and cannot fail — the EOS id is recorded like any
other; the described rejection of the EOS id holds of the fallible
`try_insert` that every caller in the crate uses (absent from `src/`,
modelled from the spec), which errors exactly when the inserted id is
the EOS id and otherwise appends like `insert`. -/
theorem vocabulary_insert_appends_try_insert_rejects_eos :
    (∀ (v : Vocabulary) (token : Token) (id : TokenId),
      lookupA (v.insert token id).tokens token =
        some (((lookupA v.tokens token).getD []) ++ [id])) ∧
    (∀ (v : Vocabulary) (token : Token) (id : TokenId), id = v.eos_token_id →
      v.try_insert token id =
        Except.error "EOS token should not be inserted into Vocabulary") ∧
    (∀ (v : Vocabulary) (token : Token) (id : TokenId), id ≠ v.eos_token_id →
      v.try_insert token id = Except.ok (v.insert token id)) := by
  refine ⟨?_, ?_, ?_⟩
  · intro v token id
    unfold Vocabulary.insert
    dsimp only
    rw [lookupA_insertA]
    simp
  · intro v token id h
    simp [Vocabulary.try_insert, h]
  · intro v token id h
    simp [Vocabulary.try_insert, h]

theorem vocabulary_insert_appends_try_insert_rejects_eos_witness :
    lookupA ((Vocabulary.new 3).insert [97] 5).tokens [97] = some [5] ∧
    (Vocabulary.new 3).try_insert [97] 3 =
      Except.error "EOS token should not be inserted into Vocabulary" ∧
    (Vocabulary.new 3).try_insert [97] 5 = Except.ok ((Vocabulary.new 3).insert [97] 5) :=
  ⟨vocabulary_insert_appends_try_insert_rejects_eos.1 (Vocabulary.new 3) [97] 5,
   vocabulary_insert_appends_try_insert_rejects_eos.2.1 (Vocabulary.new 3) [97] 3 rfl,
   vocabulary_insert_appends_try_insert_rejects_eos.2.2 (Vocabulary.new 3) [97] 5 (by decide)⟩

/-- C10: `MasksTable::next_state` is not total in its state argument:
for a token id within the class table and a state id at or beyond the
number of materialized states, it indexes the next-states vector
without a bounds check and panics (modelled by the outer `none`)
instead of returning `None`, whereas `allowed_transitions` — and hence
`V2Index::allowed_tokens` — returns `None` for the same state;
`V2Index::next_state` on a non-EOS token id forwards to the panicking
table lookup. -/
theorem masks_table_next_state_panics_out_of_range
    (t : MasksTable) (state_id : StateId) (token_id : TokenId)
    (htok : token_id < t.equivalent_grid.class_id_by_token_id.length)
    (hstate : t.next_states.length ≤ state_id)
    (hmask : t.masks.length = t.next_states.length) :
    t.next_state state_id token_id = none ∧
    t.allowed_transitions state_id = none ∧
    (∀ idx : V2Index, idx.tokens_dfa.transitions_table = t →
      token_id ≠ idx.tokens_dfa.eos_token_id →
      idx.next_state state_id token_id = none ∧ idx.allowed_tokens state_id = none) := by
  have hns : t.next_state state_id token_id = none := by
    unfold MasksTable.next_state
    rw [List.getElem?_eq_getElem htok]
    rw [List.getElem?_eq_none hstate]
  have hal : t.allowed_transitions state_id = none := by
    unfold MasksTable.allowed_transitions
    rw [if_pos (hmask ▸ hstate)]
  refine ⟨hns, hal, ?_⟩
  intro idx hidx htid
  constructor
  · unfold V2Index.next_state
    rw [if_neg htid, hidx, hns]
  · unfold V2Index.allowed_tokens
    rw [hidx, hal]

theorem masks_table_next_state_panics_out_of_range_witness :
    mtEx.next_state 5 0 = none ∧
    mtEx.allowed_transitions 5 = none ∧
    v2Ex.next_state 5 0 = none ∧ v2Ex.allowed_tokens 5 = none :=
  have h := masks_table_next_state_panics_out_of_range mtEx 5 0 (by decide) (by decide)
    (by decide)
  have h2 := h.2.2 v2Ex rfl (by decide)
  ⟨h.1, h.2.1, h2.1, h2.2⟩

theorem handle_ref_fully_resolves_deep_chain_counterexample :
    to_regex 20 refChainFull none refChainFull = some (Except.ok "(true|false)") := by
  rfl

/-- C6 (amended): `handle_ref` resolves `$ref` against the document
root with no recursion-depth cap: a chain of references deeper than 3
is fully resolved to the referenced schema's regex (never truncated to
an unconstrained-object emission), and on a cyclic or self-referential
`$ref` chain `to_regex` does not return — the fuelled interpreter runs
out of fuel for every fuel bound. -/
theorem handle_ref_no_depth_cap :
    (∀ (fuel : Nat) (ws : Option String), to_regex fuel schemaCyc ws fullCyc = none) ∧
    to_regex 20 refChainFull none refChainFull = some (Except.ok "(true|false)") := by
  constructor
  · intro fuel
    induction fuel with
    | zero => intro ws; rfl
    | succ n ih =>
      intro ws
      have hstep : to_regex (n + 1) schemaCyc ws fullCyc =
          to_regex n schemaCyc (some (ws.getD WHITESPACE)) fullCyc := rfl
      rw [hstep]
      exact ih _
  · rfl

theorem handle_ref_no_depth_cap_witness :
    to_regex 3 schemaCyc (some "[ ]?") fullCyc = none :=
  handle_ref_no_depth_cap.1 3 (some "[ ]?")

/-- C8: For every schema object whose selected discriminator keyword is
`allOf` (the object is non-empty and has no `properties` key, the only
keyword of higher priority), the translator returns one parenthesized
group containing the subschema regexes concatenated in order (joined
with the empty string), and it errors with "'allOf' must be an array"
when the `allOf` value is not an array. -/
theorem all_of_concatenates_subregexes
    (fuel : Nat) (obj : List (String × Value)) (ws : Option String) (full : Value)
    (hne : obj ≠ []) (hnp : lookupA obj "properties" = none) :
    (∀ subs rs, lookupA obj "allOf" = some (Value.arr subs) →
      to_regex_list (to_regex fuel) subs (some (ws.getD WHITESPACE)) full =
        some (Except.ok rs) →
      to_regex (fuel + 1) (Value.obj obj) ws full =
        some (Except.ok ("(" ++ String.join rs ++ ")"))) ∧
    (∀ v, lookupA obj "allOf" = some v → (∀ l, v ≠ Value.arr l) →
      to_regex (fuel + 1) (Value.obj obj) ws full =
        some (Except.error "'allOf' must be an array")) := by
  have hempty : obj.isEmpty = false := by
    cases obj with
    | nil => exact absurd rfl hne
    | cons a l => rfl
  have hdispatch : ∀ v, lookupA obj "allOf" = some v →
      to_regex (fuel + 1) (Value.obj obj) ws full =
        handle_all_of (to_regex fuel) obj (ws.getD WHITESPACE) full := by
    intro v ha
    simp only [to_regex, hempty, Bool.false_eq_true, if_false, List.findSome?_cons, hnp,
      ha, Option.isSome_none, Option.isSome_some, if_false, if_true]
  constructor
  · intro subs rs ha hrs
    rw [hdispatch (Value.arr subs) ha]
    unfold handle_all_of
    rw [ha]
    dsimp only
    rw [hrs]
  · intro v ha hv
    rw [hdispatch v ha]
    unfold handle_all_of
    rw [ha]
    cases v with
    | arr l => exact absurd rfl (hv l)
    | null => rfl
    | bool b => rfl
    | num n => rfl
    | str s => rfl
    | obj fields => rfl

theorem all_of_concatenates_subregexes_witness :
    to_regex 5 allOfEx none allOfEx = some (Except.ok "((true|false)null)") ∧
    to_regex 5 allOfBad none allOfBad = some (Except.error "'allOf' must be an array") :=
  ⟨(all_of_concatenates_subregexes 4
      [("allOf", Value.arr [Value.obj [("type", Value.str "boolean")],
        Value.obj [("type", Value.str "null")]])] none allOfEx
      (List.cons_ne_nil _ _) rfl).1
      [Value.obj [("type", Value.str "boolean")], Value.obj [("type", Value.str "null")]]
      ["(true|false)", "null"] rfl rfl,
   (all_of_concatenates_subregexes 4 [("allOf", Value.str "x")] none allOfBad
      (List.cons_ne_nil _ _) rfl).2 (Value.str "x") rfl
      (fun _ h => Value.noConfusion h)⟩

lemma initFilterEntry_216 (add : List (Token × TokenId)) (bc : Nat → Nat)
    (dead : List Nat) (eos : TokenId) (p : Token × List TokenId)
    (h : p.2.head? = some 216) :
    initFilterEntry add bc dead eos p = some none := by
  obtain ⟨rest, h2⟩ : ∃ rest, p.2 = 216 :: rest := by
    cases hl : p.2 with
    | nil => rw [hl] at h; exact absurd h (by simp)
    | cons a l =>
      rw [hl] at h
      simp at h
      exact ⟨l, by rw [h]⟩
  unfold initFilterEntry
  rw [h2]
  by_cases heos : eos ∈ (216 : Nat) :: rest
  · rw [if_pos heos]
  · rw [if_neg heos]
    dsimp only
    rw [if_pos rfl]

lemma initResults_skip_216 (pre post : List (Token × List TokenId))
    (e : Token × List TokenId) (add : List (Token × TokenId)) (bc : Nat → Nat)
    (dead : List Nat) (eos : TokenId) (h : e.2.head? = some 216) :
    initResults (pre ++ e :: post) add bc dead eos =
    initResults (pre ++ post) add bc dead eos := by
  unfold initResults
  rw [List.foldl_append, List.foldl_append, List.foldl_cons]
  congr 1
  rw [initFilterEntry_216 add bc dead eos e h]
  cases List.foldl _ (some []) pre <;> rfl

/-- C9 (amended): the class-building filter of
`init_classes_and_graph_optimized` unconditionally drops every
vocabulary entry whose first token id is 216, for every vocabulary,
additional-token list, byte partition, dead-class set, EOS id and
graph/table state: the whole construction is unchanged by deleting
such an entry.  (The original claim's stronger consequence — that id
216 is then never assigned a token class — is false, because 216 may
ride along as a non-first synonym id of another entry; see the
counterexample.) -/
theorem init_classes_skips_first_id_216
    (pre post : List (Token × List TokenId)) (e : Token × List TokenId)
    (add : List (Token × TokenId)) (g : TokenClassesGraph) (t : PMasksTable)
    (bc : Nat → Nat) (dead : List Nat) (eos : TokenId) (fuel : Nat)
    (h : e.2.head? = some 216) :
    init_classes_and_graph_optimized (pre ++ e :: post) add g t bc dead eos fuel =
    init_classes_and_graph_optimized (pre ++ post) add g t bc dead eos fuel := by
  unfold init_classes_and_graph_optimized
  rw [initResults_skip_216 pre post e add bc dead eos h]

/-- C9 counterexample: token id 216 does get a token class when it is a
non-first synonym id: for the vocabulary with the single entry
`"x" ↦ [5, 216]` (first id 5, so the 216-filter does not fire), class
building binds id 216 to class 0 in the token-class map. -/
theorem token_216_bound_via_synonym_counterexample :
    (init_classes_and_graph_optimized [([120], [5, 216])] [] TokenClassesGraph.new
      (PMasksTable.new 2) id [] 1 5).map
      (fun r => lookupA r.2.2.token_classes 216) = some (some 0) := by rfl

theorem init_classes_skips_first_id_216_witness :
    init_classes_and_graph_optimized [([97], [216]), ([120], [5])] []
      TokenClassesGraph.new (PMasksTable.new 2) id [] 1 5 =
    init_classes_and_graph_optimized [([120], [5])] []
      TokenClassesGraph.new (PMasksTable.new 2) id [] 1 5 :=
  init_classes_skips_first_id_216 [] [([120], [5])] ([97], [216]) []
    TokenClassesGraph.new (PMasksTable.new 2) id [] 1 5 rfl

/-- C2 counterexample: muting is not language-preserving.  For regex
`"x"`, vocabulary `"x" ↦ [5, 7]`, EOS 9: the plain Index accepts the
one-token sequence `[5]`, but the muted (V2) index built through
`mute_literals` / `TokensDFA::new` rejects it — muting rewrote the
literal `x` to the placeholder pair `\x1C1\x1C2`, so the muted
automaton demands one placeholder hop per synonym id. -/
theorem muting_changes_language_counterexample :
    (Index.new "x" dfaX 0 vocabC2 20).map (fun r => r.map (fun i => i.acceptsSeq [5])) =
      some (Except.ok true) ∧
    (TokensDFA_new engC2 ['x'] vocabC2 20).map (fun r => r.map (fun d => d.acceptsSeq [5])) =
      some (Except.ok (some false)) := by
  exact ⟨rfl, rfl⟩

/-- C2 (amended): on the same inputs the muted index accepts exactly
the two-hop synonym sequences (in either order, since the synonym ids
share a token class after un-muting), none of which the plain Index
accepts — the two automata recognize disjoint nonempty languages. -/
theorem muted_index_accepts_synonym_sequences :
    (TokensDFA_new engC2 ['x'] vocabC2 20).map (fun r => r.map (fun d =>
      (d.acceptsSeq [5, 7], d.acceptsSeq [7, 5], d.acceptsSeq [7]))) =
      some (Except.ok (some true, some true, some false)) ∧
    (Index.new "x" dfaX 0 vocabC2 20).map (fun r => r.map (fun i =>
      (i.acceptsSeq [5, 7], i.acceptsSeq [7]))) = some (Except.ok (false, true)) := by
  exact ⟨rfl, rfl⟩
